import Mathlib

/-!
Verification of the SchoolCity isometric city-planning game.

This development shallowly embeds the game's core logic in Lean 4:

* the isometric coordinate transform of `rendering.service.ts`
  (`gridToScreen` / `screenToGrid`, with zoom, map offset and camera pan);
* the tile grid of `grid.service.ts` (a fixed 10×10 array of tiles, each
  carrying `hasSchool` and the three boundary ids);
* the boundary registry of `municipality-manager.service.ts`
  (municipalities owning areas owning units, with first-match removal);
* the school service of `school.service.ts` (placement with footprint
  checks, smart auto-placement, student counts, capacities);
* the paint state machine of `main-scene.ts` (`setPaintMode`,
  `paintMunicipality`, `paintArea`, `paintUnit`, `paintSchool`,
  `clearTile`, `cleanupOrphanedStructures`);
* the save-data validation of `game-data.service.ts`.

Conventions used throughout the embedding:

* JS numbers that carry pixel coordinates are modelled as rationals `ℚ`
  (the arithmetic performed on them — sums, differences, products and
  divisions of small quantities — is exact in binary floating point only
  up to rounding; the rational model captures the intended real-number
  algebra, and all concrete values appearing in the claims are exactly
  representable);
* grid coordinates are integers `ℤ` (screen-to-grid conversion rounds,
  and arithmetic such as `clickX - dx` may go negative before a bounds
  check);
* JS strings are `String`; the empty string is falsy, so a truthiness
  test `!tile.municipalityId` becomes a comparison with `""`;
* fields typed `string | null` are `Option String`, where `none` is
  `null`; a truthiness test on such a field is false for `none` and for
  `some ""`;
* the mutable tile array is a total function `ℤ → ℤ → Tile`; mutation is
  pointwise functional update; all reads performed by the game go
  through the bounds-checked `getTile`;
* a JS `Map` keyed by id is a list of values in insertion order: `set`
  of a fresh key appends, `delete` removes the (unique) match, and
  in-place mutation of a looked-up value is replacement of the first
  match.
-/

/-! ## Grid constants (`game-constants.ts`, `GAME_CONSTANTS.GRID`) -/

def GRID_SIZE : ℤ := 10

def TILE_WIDTH : ℚ := 64

def TILE_HEIGHT : ℚ := 32

/-! ## Rendering service (`rendering.service.ts`)

`RenderState` combines the fields of `RenderConfig` with the service's
`zoom` and camera offset fields.  The tile dimensions are the constants
`TILE_WIDTH` / `TILE_HEIGHT` with which the service initialises its
config; map offset, zoom and camera offset are left arbitrary. -/

structure RenderState where
  mapOffsetX : ℚ
  mapOffsetY : ℚ
  zoom : ℚ
  cameraOffsetX : ℚ
  cameraOffsetY : ℚ

namespace RenderingService

/-- JavaScript `Math.round`: round half toward positive infinity. -/
def jsRound (q : ℚ) : ℤ := ⌊q + 1/2⌋

/-- `setZoom`: clamp the zoom into `[0.5, 2]`
(`Math.max(0.5, Math.min(zoom, 2))`). -/
def setZoom (st : RenderState) (zoom : ℚ) : RenderState :=
  { st with zoom := max (1/2) (min zoom 2) }

/-- `gridToScreen(x, y)`:
`sx = mapOffsetX + (x - y) * (tileWidth / 2) * zoom + cameraOffsetX`,
`sy = mapOffsetY + (x + y) * (tileHeight / 2) * zoom + cameraOffsetY`. -/
def gridToScreen (st : RenderState) (x y : ℤ) : ℚ × ℚ :=
  (st.mapOffsetX + ((x : ℚ) - (y : ℚ)) * (TILE_WIDTH / 2) * st.zoom + st.cameraOffsetX,
   st.mapOffsetY + ((x : ℚ) + (y : ℚ)) * (TILE_HEIGHT / 2) * st.zoom + st.cameraOffsetY)

/-- `screenToGrid(sx, sy)`: the source first computes
`adjustedX = (sx - mapOffsetX - cameraOffsetX) / zoom` and
`adjustedY = (sy - mapOffsetY - cameraOffsetY) / zoom`, then rounds
`(adjustedX / (tileWidth/2) + adjustedY / (tileHeight/2)) / 2` to `x`
and `(adjustedY / (tileHeight/2) - adjustedX / (tileWidth/2)) / 2` to
`y`; the two local bindings are inlined here. -/
def screenToGrid (st : RenderState) (sx sy : ℚ) : ℤ × ℤ :=
  (jsRound (((sx - st.mapOffsetX - st.cameraOffsetX) / st.zoom / (TILE_WIDTH / 2)
      + (sy - st.mapOffsetY - st.cameraOffsetY) / st.zoom / (TILE_HEIGHT / 2)) / 2),
   jsRound (((sy - st.mapOffsetY - st.cameraOffsetY) / st.zoom / (TILE_HEIGHT / 2)
      - (sx - st.mapOffsetX - st.cameraOffsetX) / st.zoom / (TILE_WIDTH / 2)) / 2))

end RenderingService

/-! ## Tiles and the grid (`grid.service.ts`) -/

/-- A tile of the grid: coordinates, school flag and the three boundary
ids (empty string = unassigned, as in the source's initial grid). -/
structure Tile where
  x : ℤ
  y : ℤ
  hasSchool : Bool
  municipalityId : String
  areaId : String
  unitId : String
deriving DecidableEq, Repr

/-- The tile array.  The source stores a `gridSize × gridSize` array and
bounds-checks every access; we use a total function and route all the
game's reads through the bounds-checked `getTile`. -/
def Grid := ℤ → ℤ → Tile

/-- `initializeGrid`: completely empty tiles, no boundaries assigned. -/
def initialGrid : Grid := fun x y =>
  { x := x, y := y, hasSchool := false, municipalityId := "", areaId := "", unitId := "" }

/-- Pointwise functional update of the tile at `(x, y)` (the effect of
mutating the tile object stored there). -/
def updateTile (g : Grid) (x y : ℤ) (f : Tile → Tile) : Grid :=
  fun a b => if a = x ∧ b = y then f (g a b) else g a b

namespace GridService

/-- `isValidPosition(x, y)`: `x >= 0 && y >= 0 && x < gridSize && y < gridSize`. -/
def isValidPosition (x y : ℤ) : Bool :=
  decide (0 ≤ x) && decide (0 ≤ y) && decide (x < GRID_SIZE) && decide (y < GRID_SIZE)

/-- `getTile(x, y)`: the tile, or `null` when out of bounds. -/
def getTile (g : Grid) (x y : ℤ) : Option Tile :=
  if isValidPosition x y then some (g x y) else none

/-- `setTileSchool(x, y, hasSchool)`: set the flag when in bounds. -/
def setTileSchool (g : Grid) (x y : ℤ) (hs : Bool) : Bool × Grid :=
  if isValidPosition x y then (true, updateTile g x y (fun t => { t with hasSchool := hs }))
  else (false, g)

/-- `hasSchool(x, y)`: the tile's flag, or `false` out of bounds. -/
def hasSchool (g : Grid) (x y : ℤ) : Bool :=
  match getTile g x y with
  | some t => t.hasSchool
  | none => false

/-- `placeSchool(x, y)` (grid level): mark the tile when it is in bounds
and not yet marked. -/
def placeSchool (g : Grid) (x y : ℤ) : Bool × Grid :=
  if isValidPosition x y && !(hasSchool g x y) then setTileSchool g x y true
  else (false, g)

/-- `removeSchool(x, y)` (grid level): unmark the tile when it is in
bounds and marked. -/
def removeSchool (g : Grid) (x y : ℤ) : Bool × Grid :=
  if isValidPosition x y && hasSchool g x y then setTileSchool g x y false
  else (false, g)

end GridService

/-! ## Boundary registry (`municipality-manager.service.ts`)

Definitions carry the id/name/parent structure.  The colour fields
(`baseColor`, `color`, …) are pure rendering data computed from the
theme palette; no control flow of the embedded operations depends on
them and they are omitted. -/

structure UnitDef where
  id : String
  name : String
  areaId : String
  municipalityId : String
deriving DecidableEq, Repr

structure AreaDef where
  id : String
  name : String
  municipalityId : String
  units : List UnitDef
deriving DecidableEq, Repr

structure MunicipalityDef where
  id : String
  name : String
  areas : List AreaDef
deriving DecidableEq, Repr

/-- The manager's mutable state: the municipality list plus the id
counter (which starts at 1). -/
structure Registry where
  municipalities : List MunicipalityDef
  counter : ℕ
deriving DecidableEq, Repr

namespace MunicipalityManager

/-- `addMunicipality()`: push a fresh municipality
`municipality-<counter>` and increment the counter. -/
def addMunicipality (r : Registry) : MunicipalityDef × Registry :=
  let m : MunicipalityDef :=
    { id := "municipality-" ++ toString r.counter,
      name := "Municipality " ++ toString r.counter,
      areas := [] }
  (m, { municipalities := r.municipalities ++ [m], counter := r.counter + 1 })

/-- Helper for `addArea`: find the first municipality with the given id
and push a fresh area into it (the source mutates the object returned
by `find`). -/
def addAreaGo : List MunicipalityDef → String → Option AreaDef × List MunicipalityDef
  | [], _ => (none, [])
  | m :: rest, municipalityId =>
    if m.id == municipalityId then
      let area : AreaDef :=
        { id := municipalityId ++ "-area-" ++ toString (m.areas.length + 1),
          name := "Area " ++ toString (m.areas.length + 1),
          municipalityId := municipalityId,
          units := [] }
      (some area, { m with areas := m.areas ++ [area] } :: rest)
    else
      let (res, rest2) := addAreaGo rest municipalityId
      (res, m :: rest2)

/-- `addArea(municipalityId)`: `null` when the municipality is missing,
otherwise the fresh area `<municipalityId>-area-<index>`. -/
def addArea (r : Registry) (municipalityId : String) : Option AreaDef × Registry :=
  let (res, l) := addAreaGo r.municipalities municipalityId
  (res, { r with municipalities := l })

/-- Helper for `addUnit`: push a fresh unit into the first area of the
list with the given id. -/
def addUnitIntoAreas : List AreaDef → String → String → Option UnitDef × List AreaDef
  | [], _, _ => (none, [])
  | a :: rest, municipalityId, areaId =>
    if a.id == areaId then
      let u : UnitDef :=
        { id := areaId ++ "-unit-" ++ toString (a.units.length + 1),
          name := "Unit " ++ toString (a.units.length + 1),
          areaId := areaId,
          municipalityId := municipalityId }
      (some u, { a with units := a.units ++ [u] } :: rest)
    else
      let (res, rest2) := addUnitIntoAreas rest municipalityId areaId
      (res, a :: rest2)

/-- Helper for `addUnit`: locate the municipality first (the source
requires both the municipality and, inside it, the area). -/
def addUnitGo : List MunicipalityDef → String → String → Option UnitDef × List MunicipalityDef
  | [], _, _ => (none, [])
  | m :: rest, municipalityId, areaId =>
    if m.id == municipalityId then
      let (res, as2) := addUnitIntoAreas m.areas municipalityId areaId
      (res, { m with areas := as2 } :: rest)
    else
      let (res, rest2) := addUnitGo rest municipalityId areaId
      (res, m :: rest2)

/-- `addUnit(municipalityId, areaId)`: `null` when the municipality or
the area inside it is missing, otherwise the fresh unit
`<areaId>-unit-<index>`. -/
def addUnit (r : Registry) (municipalityId areaId : String) : Option UnitDef × Registry :=
  let (res, l) := addUnitGo r.municipalities municipalityId areaId
  (res, { r with municipalities := l })

/-- `getMunicipalityById(id)`. -/
def getMunicipalityById (l : List MunicipalityDef) (id : String) : Option MunicipalityDef :=
  l.find? (fun m => m.id == id)

/-- `getAreaById(areaId)`: first match scanning municipalities in order. -/
def getAreaById (l : List MunicipalityDef) (areaId : String) : Option AreaDef :=
  l.findSome? (fun m => m.areas.find? (fun a => a.id == areaId))

/-- `getUnitById(unitId)`: first match scanning municipalities and areas
in order. -/
def getUnitById (l : List MunicipalityDef) (unitId : String) : Option UnitDef :=
  l.findSome? (fun m => m.areas.findSome? (fun a => a.units.find? (fun u => u.id == unitId)))

/-- `removeMunicipality(municipalityId)`: `findIndex` + `splice`, i.e.
remove the first municipality with that id. -/
def removeMunicipality : List MunicipalityDef → String → Bool × List MunicipalityDef
  | [], _ => (false, [])
  | m :: rest, id =>
    if m.id == id then (true, rest)
    else
      let (b, rest2) := removeMunicipality rest id
      (b, m :: rest2)

/-- Helper for `removeArea`: remove the first area with the id from one
municipality's list, reporting whether it was found. -/
def removeAreaFromList : List AreaDef → String → Bool × List AreaDef
  | [], _ => (false, [])
  | a :: rest, id =>
    if a.id == id then (true, rest)
    else
      let (b, rest2) := removeAreaFromList rest id
      (b, a :: rest2)

/-- `removeArea(areaId)`: scan municipalities in order; in the first one
whose list contains the area, `splice` it out. -/
def removeArea : List MunicipalityDef → String → Bool × List MunicipalityDef
  | [], _ => (false, [])
  | m :: rest, id =>
    let (found, as2) := removeAreaFromList m.areas id
    if found then (true, { m with areas := as2 } :: rest)
    else
      let (b, rest2) := removeArea rest id
      (b, m :: rest2)

/-- Helper for `removeUnit`: remove the first unit with the id from one
area's list. -/
def removeUnitFromList : List UnitDef → String → Bool × List UnitDef
  | [], _ => (false, [])
  | u :: rest, id =>
    if u.id == id then (true, rest)
    else
      let (b, rest2) := removeUnitFromList rest id
      (b, u :: rest2)

/-- Helper for `removeUnit`: scan one municipality's areas in order. -/
def removeUnitFromAreas : List AreaDef → String → Bool × List AreaDef
  | [], _ => (false, [])
  | a :: rest, id =>
    let (found, us2) := removeUnitFromList a.units id
    if found then (true, { a with units := us2 } :: rest)
    else
      let (b, rest2) := removeUnitFromAreas rest id
      (b, a :: rest2)

/-- `removeUnit(unitId)`: scan municipalities and areas in order; in the
first area whose list contains the unit, `splice` it out. -/
def removeUnit : List MunicipalityDef → String → Bool × List MunicipalityDef
  | [], _ => (false, [])
  | m :: rest, id =>
    let (found, as2) := removeUnitFromAreas m.areas id
    if found then (true, { m with areas := as2 } :: rest)
    else
      let (b, rest2) := removeUnit rest id
      (b, m :: rest2)

end MunicipalityManager

/-! ## School service (`school.service.ts`, `GAME_CONSTANTS.SCHOOL`) -/

inductive SchoolType where
  | ELEMENTARY
  | MIDDLE
  | HIGH
deriving DecidableEq, Repr

namespace SchoolType

/-- `GAME_CONSTANTS.SCHOOL.TYPES[t].size.width`. -/
def sizeWidth : SchoolType → ℕ
  | .ELEMENTARY => 2
  | .MIDDLE => 3
  | .HIGH => 4

/-- `GAME_CONSTANTS.SCHOOL.TYPES[t].size.height`. -/
def sizeHeight : SchoolType → ℕ
  | .ELEMENTARY => 2
  | .MIDDLE => 3
  | .HIGH => 3

/-- `GAME_CONSTANTS.SCHOOL.TYPES[t].capacity`. -/
def typeCapacity : SchoolType → ℤ
  | .ELEMENTARY => 150
  | .MIDDLE => 300
  | .HIGH => 600

/-- `GAME_CONSTANTS.SCHOOL.TYPES[t].name`. -/
def typeName : SchoolType → String
  | .ELEMENTARY => "Elementary School"
  | .MIDDLE => "Middle School"
  | .HIGH => "High School"

end SchoolType

/-- `GAME_CONSTANTS.SCHOOL.MIN_CAPACITY`. -/
def MIN_CAPACITY : ℤ := 10

/-- `GAME_CONSTANTS.SCHOOL.MAX_CAPACITY`. -/
def MAX_CAPACITY : ℤ := 1000

/-- A rendering sub-component of a school (`SchoolComponent`): kind,
position relative to the school's top-left corner, size in tiles. -/
structure SchoolComponent where
  kind : String
  posX : ℤ
  posY : ℤ
  width : ℕ
  height : ℕ
deriving DecidableEq, Repr

/-- `generateSchoolLayout(type)`. -/
def generateSchoolLayout : SchoolType → List SchoolComponent
  | .ELEMENTARY =>
    [⟨"MAIN_BUILDING", 0, 0, 1, 1⟩, ⟨"PLAYGROUND", 1, 0, 1, 1⟩,
     ⟨"GARDEN", 0, 1, 1, 1⟩, ⟨"PARKING", 1, 1, 1, 1⟩]
  | .MIDDLE =>
    [⟨"MAIN_BUILDING", 0, 0, 2, 1⟩, ⟨"GYMNASIUM", 2, 0, 1, 1⟩,
     ⟨"PLAYGROUND", 0, 1, 1, 1⟩, ⟨"SPORTS_COURT", 1, 1, 1, 1⟩,
     ⟨"LIBRARY", 2, 1, 1, 1⟩, ⟨"CAFETERIA", 0, 2, 2, 1⟩, ⟨"PARKING", 2, 2, 1, 1⟩]
  | .HIGH =>
    [⟨"MAIN_BUILDING", 0, 0, 2, 2⟩, ⟨"GYMNASIUM", 2, 0, 1, 1⟩,
     ⟨"LIBRARY", 3, 0, 1, 1⟩, ⟨"CAFETERIA", 2, 1, 2, 1⟩,
     ⟨"SPORTS_COURT", 0, 2, 2, 1⟩, ⟨"PLAYGROUND", 2, 2, 1, 1⟩, ⟨"PARKING", 3, 2, 1, 1⟩]

/-- A placed school.  The source's `createdAt : Date` timestamp is
environmental (wall-clock) data never read by any game logic and is
omitted. -/
structure School where
  id : String
  posX : ℤ
  posY : ℤ
  width : ℕ
  height : ℕ
  type : SchoolType
  name : String
  capacity : ℤ
  currentStudents : ℤ
  layout : List SchoolComponent
deriving DecidableEq, Repr

/-- The service's mutable state: the school `Map` (insertion order) and
the id counter. -/
structure SchoolState where
  schools : List School
  schoolCounter : ℕ
deriving DecidableEq, Repr

/-- The school service's initial state (`schools` empty, counter 0). -/
def initialSchoolState : SchoolState := { schools := [], schoolCounter := 0 }

namespace SchoolService

/-- `canPlaceSchool(x, y, size)`: every footprint tile must be in
bounds, carry no school, and have a non-empty `unitId`. -/
def canPlaceSchool (g : Grid) (x y : ℤ) (w h : ℕ) : Bool :=
  (List.range w).all fun (dx : ℕ) =>
    (List.range h).all fun (dy : ℕ) =>
      GridService.isValidPosition (x + dx) (y + dy) &&
      !(GridService.hasSchool g (x + dx) (y + dy)) &&
      (match GridService.getTile g (x + dx) (y + dy) with
       | some t => t.unitId != ""
       | none => false)

/-- `canPlaceSchoolInSameUnit(x, y, size, requiredUnitId)`: every
footprint tile must be in bounds, carry no school, and have `unitId`
equal to `requiredUnitId` and non-empty (the source rejects when
`tile.unitId !== requiredUnitId || !tile.unitId`). -/
def canPlaceSchoolInSameUnit (g : Grid) (x y : ℤ) (w h : ℕ) (requiredUnitId : String) : Bool :=
  (List.range w).all fun (dx : ℕ) =>
    (List.range h).all fun (dy : ℕ) =>
      GridService.isValidPosition (x + dx) (y + dy) &&
      !(GridService.hasSchool g (x + dx) (y + dy)) &&
      (match GridService.getTile g (x + dx) (y + dy) with
       | some t => t.unitId == requiredUnitId && t.unitId != ""
       | none => false)

/-- Marking the footprint: the source's nested
`for dx { for dy { gridService.placeSchool(x+dx, y+dy) } }` loops. -/
def markFootprint (g : Grid) (x y : ℤ) (w h : ℕ) : Grid :=
  (List.range w).foldl
    (fun g1 (dx : ℕ) =>
      (List.range h).foldl
        (fun g2 (dy : ℕ) => (GridService.placeSchool g2 (x + dx) (y + dy)).2) g1)
    g

/-- `placeSchool(x, y, schoolType?, name?)`: check the footprint, then
create `school_<counter>` (counter pre-incremented), insert it into the
map and mark every footprint tile. -/
def placeSchool (g : Grid) (ss : SchoolState) (x y : ℤ)
    (schoolType : Option SchoolType) (name : Option String) :
    Option School × Grid × SchoolState :=
  let type := schoolType.getD .ELEMENTARY
  if canPlaceSchool g x y type.sizeWidth type.sizeHeight then
    let counter := ss.schoolCounter + 1
    let school : School :=
      { id := "school_" ++ toString counter,
        posX := x, posY := y,
        width := type.sizeWidth, height := type.sizeHeight,
        type := type,
        name := name.getD (type.typeName ++ " " ++ toString counter),
        capacity := type.typeCapacity,
        currentStudents := 0,
        layout := generateSchoolLayout type }
    (some school,
     markFootprint g x y type.sizeWidth type.sizeHeight,
     { schools := ss.schools ++ [school], schoolCounter := counter })
  else (none, g, ss)

/-- The source's selection loop over `possiblePositions`: strict
improvement only, so earlier entries win ties.  The source starts with
`bestPosition = possiblePositions[0]` and `bestScore = Infinity`; the
first iteration always improves on `Infinity`, so the loop is equivalent
to starting from the head element with its own score, which is how the
caller below invokes this function. -/
def pickLoop {α : Type} (f : α → ℚ) : List α → α → ℚ → α
  | [], best, _ => best
  | p :: rest, best, bestScore =>
    if f p < bestScore then pickLoop f rest p (f p)
    else pickLoop f rest best bestScore

/-- The source's score for a candidate top-left corner `(px, py)`:
`|offsetX - centerOffsetX| + |offsetY - centerOffsetY|` where
`offset = click - pos` and `centerOffset = (size - 1) / 2`.  The float
arithmetic on these quarter-integral values is exact, so `ℚ` models it
faithfully. -/
def distanceToCenter (w h : ℕ) (clickX clickY px py : ℤ) : ℚ :=
  |((clickX - px : ℤ) : ℚ) - ((w : ℚ) - 1) / 2| +
  |((clickY - py : ℤ) : ℚ) - ((h : ℚ) - 1) / 2|

/-- `findBestSchoolPosition(clickX, clickY, size)`: collect every
top-left corner that puts the clicked tile at some offset `(dx, dy)`
inside the footprint and passes `canPlaceSchoolInSameUnit` for the
clicked tile's unit; among those, pick the first one minimising
`distanceToCenter`. -/
def findBestSchoolPosition (g : Grid) (clickX clickY : ℤ) (w h : ℕ) :
    Option (ℤ × ℤ) :=
  match GridService.getTile g clickX clickY with
  | none => none
  | some clickedTile =>
    if clickedTile.unitId == "" then none
    else
      let requiredUnitId := clickedTile.unitId
      let possiblePositions : List (ℤ × ℤ) :=
        (List.range w).flatMap fun (dx : ℕ) =>
          (List.range h).filterMap fun (dy : ℕ) =>
            if canPlaceSchoolInSameUnit g (clickX - dx) (clickY - dy) w h requiredUnitId then
              some (clickX - dx, clickY - dy)
            else none
      match possiblePositions with
      | [] => none
      | p :: rest =>
        some (pickLoop (fun q => distanceToCenter w h clickX clickY q.1 q.2) rest p
          (distanceToCenter w h clickX clickY p.1 p.2))

/-- `placeSchoolAuto(x, y, name?)`: try HIGH, then MIDDLE, then
ELEMENTARY; place at the best position of the first size that fits. -/
def placeSchoolAuto (g : Grid) (ss : SchoolState) (x y : ℤ) (name : Option String) :
    Option School × Grid × SchoolState :=
  match findBestSchoolPosition g x y SchoolType.HIGH.sizeWidth SchoolType.HIGH.sizeHeight with
  | some p => placeSchool g ss p.1 p.2 (some .HIGH) name
  | none =>
    match findBestSchoolPosition g x y SchoolType.MIDDLE.sizeWidth SchoolType.MIDDLE.sizeHeight with
    | some p => placeSchool g ss p.1 p.2 (some .MIDDLE) name
    | none =>
      match findBestSchoolPosition g x y
          SchoolType.ELEMENTARY.sizeWidth SchoolType.ELEMENTARY.sizeHeight with
      | some p => placeSchool g ss p.1 p.2 (some .ELEMENTARY) name
      | none => (none, g, ss)

/-- `getSchoolAtPosition(x, y)`: the first school (in map order) whose
footprint contains `(x, y)`. -/
def getSchoolAtPosition (ss : SchoolState) (x y : ℤ) : Option School :=
  ss.schools.find? fun s =>
    decide (s.posX ≤ x) && decide (x < s.posX + s.width) &&
    decide (s.posY ≤ y) && decide (y < s.posY + s.height)

/-- Unmarking the footprint on removal (nested
`gridService.removeSchool` loops). -/
def unmarkFootprint (g : Grid) (x y : ℤ) (w h : ℕ) : Grid :=
  (List.range w).foldl
    (fun g1 (dx : ℕ) =>
      (List.range h).foldl
        (fun g2 (dy : ℕ) => (GridService.removeSchool g2 (x + dx) (y + dy)).2) g1)
    g

/-- `removeSchool(x, y)` (service level): find the school covering the
position, unmark its whole footprint and delete it from the map. -/
def removeSchool (g : Grid) (ss : SchoolState) (x y : ℤ) : Bool × Grid × SchoolState :=
  match getSchoolAtPosition ss x y with
  | some school =>
    (true,
     unmarkFootprint g school.posX school.posY school.width school.height,
     { ss with schools := ss.schools.eraseP (fun s => s.id == school.id) })
  | none => (false, g, ss)

/-- Replacement of the first school with the given id (the effect of
mutating the object held in the `Map`). -/
def replaceSchool : List School → String → School → List School
  | [], _, _ => []
  | s :: rest, id, s2 =>
    if s.id == id then s2 :: rest else s :: replaceSchool rest id s2

/-- `updateSchoolCapacity(schoolId, newCapacity)`: clamp the new
capacity into `[MIN_CAPACITY, MAX_CAPACITY]` and store it; `false` when
the id is unknown.  (The current student count is not touched.) -/
def updateSchoolCapacity (ss : SchoolState) (schoolId : String) (newCapacity : ℤ) :
    Bool × SchoolState :=
  match ss.schools.find? (fun s => s.id == schoolId) with
  | some school =>
    let clampedCapacity := max MIN_CAPACITY (min MAX_CAPACITY newCapacity)
    let school2 : School := { school with capacity := clampedCapacity }
    (true, { ss with schools := replaceSchool ss.schools schoolId school2 })
  | none => (false, ss)

/-- `addStudents(schoolId, count)`: succeed and add exactly when the new
total stays within capacity. -/
def addStudents (ss : SchoolState) (schoolId : String) (count : ℤ) : Bool × SchoolState :=
  match ss.schools.find? (fun s => s.id == schoolId) with
  | some school =>
    let newTotal := school.currentStudents + count
    if newTotal ≤ school.capacity then
      let school2 : School := { school with currentStudents := newTotal }
      (true, { ss with schools := replaceSchool ss.schools schoolId school2 })
    else (false, ss)
  | none => (false, ss)

/-- `removeStudents(schoolId, count)`: always succeeds on a known id,
clamping the new total at zero. -/
def removeStudents (ss : SchoolState) (schoolId : String) (count : ℤ) : Bool × SchoolState :=
  match ss.schools.find? (fun s => s.id == schoolId) with
  | some school =>
    let newTotal := max 0 (school.currentStudents - count)
    let school2 : School := { school with currentStudents := newTotal }
    (true, { ss with schools := replaceSchool ss.schools schoolId school2 })
  | none => (false, ss)

end SchoolService

/-! ## Main scene paint state machine (`main-scene.ts`) -/

inductive PaintMode where
  | municipality
  | area
  | unit
  | school
  | clear
deriving DecidableEq, Repr

/-- The combined state the scene operates on: the grid service's grid,
the municipality manager's registry, the school service's state, and
the scene's own paint-mode fields. -/
structure GameState where
  grid : Grid
  registry : Registry
  schoolState : SchoolState
  paintMode : Option PaintMode
  isPlacingSchool : Bool
  selectedBoundary : Option String
  currentMunicipalityId : Option String
  currentAreaId : Option String
  currentUnitId : Option String

/-- The game's start state: empty grid, empty registry (municipality
counter 1), no schools (school counter 0), no paint mode, no active
ids. -/
def initialState : GameState :=
  { grid := initialGrid,
    registry := { municipalities := [], counter := 1 },
    schoolState := initialSchoolState,
    paintMode := none,
    isPlacingSchool := false,
    selectedBoundary := none,
    currentMunicipalityId := none,
    currentAreaId := none,
    currentUnitId := none }

/-- JS truthiness of a `string | null` value: `null` and `""` are
falsy. -/
def optTruthy : Option String → Bool
  | none => false
  | some s => s != ""

namespace MainScene

/-- `setPaintMode(mode)`: select the mode, sync the school-placement
flag, clear the legacy selection, and null the active id of every level
other than the selected one (`if (mode !== 'municipality')
this.currentMunicipalityId = null;` and likewise for area and unit). -/
def setPaintMode (st : GameState) (mode : PaintMode) : GameState :=
  { st with
    paintMode := some mode,
    isPlacingSchool := mode = PaintMode.school,
    selectedBoundary := none,
    currentMunicipalityId :=
      if mode ≠ PaintMode.municipality then none else st.currentMunicipalityId,
    currentAreaId := if mode ≠ PaintMode.area then none else st.currentAreaId,
    currentUnitId := if mode ≠ PaintMode.unit then none else st.currentUnitId }

/-- `paintMunicipality(tile)`: only on a tile without a municipality;
lazily create a municipality when there is no active one (the source
reads the created municipality back as the last list element, which is
the element `addMunicipality` just pushed); assign the active id and
demote the tile's area and unit ids. -/
def paintMunicipality (st : GameState) (x y : ℤ) : GameState :=
  let tile := st.grid x y
  if tile.municipalityId == "" then
    let st1 :=
      if !(optTruthy st.currentMunicipalityId) then
        let (newMunicipality, r2) := MunicipalityManager.addMunicipality st.registry
        { st with registry := r2, currentMunicipalityId := some newMunicipality.id }
      else st
    { st1 with grid := updateTile st1.grid x y (fun t =>
        { t with municipalityId := st1.currentMunicipalityId.getD "",
                 areaId := "", unitId := "" }) }
  else st

/-- `paintArea(tile)`: only on a tile with a municipality and no unit;
lazily create an area for the tile's municipality when there is no
active one; assign the active area only when it belongs to the tile's
municipality, clearing the tile's unit id.  (When the active id is set,
it is a created area id and hence non-empty; `Option.getD` reads the
string out of the non-null value.) -/
def paintArea (st : GameState) (x y : ℤ) : GameState :=
  let tile := st.grid x y
  if tile.municipalityId != "" && tile.unitId == "" then
    let st1 :=
      if !(optTruthy st.currentAreaId) then
        match MunicipalityManager.addArea st.registry tile.municipalityId with
        | (some newArea, r2) => { st with registry := r2, currentAreaId := some newArea.id }
        | (none, r2) => { st with registry := r2 }
      else st
    if optTruthy st1.currentAreaId then
      let aid := st1.currentAreaId.getD ""
      match MunicipalityManager.getAreaById st1.registry.municipalities aid with
      | some area =>
        if area.municipalityId == tile.municipalityId then
          { st1 with grid := updateTile st1.grid x y (fun t =>
              { t with areaId := aid, unitId := "" }) }
        else st1
      | none => st1
    else st1
  else st

/-- `paintUnit(tile)`: only on a tile with an area and no unit; lazily
create a unit for the tile's area (looking the area up to learn its
municipality) when there is no active one; assign the active unit only
when it belongs to the tile's area. -/
def paintUnit (st : GameState) (x y : ℤ) : GameState :=
  let tile := st.grid x y
  if tile.areaId != "" && tile.unitId == "" then
    let st1 :=
      if !(optTruthy st.currentUnitId) then
        match MunicipalityManager.getAreaById st.registry.municipalities tile.areaId with
        | some area =>
          match MunicipalityManager.addUnit st.registry area.municipalityId tile.areaId with
          | (some newUnit, r2) => { st with registry := r2, currentUnitId := some newUnit.id }
          | (none, r2) => { st with registry := r2 }
        | none => st
      else st
    if optTruthy st1.currentUnitId then
      let uid := st1.currentUnitId.getD ""
      match MunicipalityManager.getUnitById st1.registry.municipalities uid with
      | some u =>
        if u.areaId == tile.areaId then
          { st1 with grid := updateTile st1.grid x y (fun t => { t with unitId := uid }) }
        else st1
      | none => st1
    else st1
  else st

/-- `paintSchool(tile, x, y)`: only on a tile inside a unit and without
a school; delegate to the school service's auto-placement (the returned
school is only used for logging). -/
def paintSchool (st : GameState) (x y : ℤ) : GameState :=
  let tile := st.grid x y
  if tile.unitId != "" && !tile.hasSchool then
    let res := SchoolService.placeSchoolAuto st.grid st.schoolState x y none
    { st with grid := res.2.1, schoolState := res.2.2 }
  else st

/-- Modelled from the spec: the `gridService.width` and
`gridService.height` properties read by `cleanupOrphanedStructures` in
`main-scene.ts`.  The captured `grid.service.ts` does not declare them
(the documented revision of that file, which `game-data.service.ts`
also relies on for `loadGrid`, is absent from the sources); the spec
describes the cleanup as a "full-grid linear scan" that removes an
entity "once no tile references it", so the scan bounds are the grid
size, 10. -/
def gridWidth : ℕ := 10

/-- Modelled from the spec: see `gridWidth`. -/
def gridHeight : ℕ := 10

/-- One reference scan of `cleanupOrphanedStructures`: the nested
`for x { for y { … } }` loops with early exit, which decide whether any
tile's field (selected by `f`) equals the id. -/
def stillUsed (g : Grid) (f : Tile → String) (id : String) : Bool :=
  (List.range gridWidth).any fun (x : ℕ) =>
    (List.range gridHeight).any fun (y : ℕ) =>
      match GridService.getTile g (x : ℤ) (y : ℤ) with
      | some t => f t == id
      | none => false

/-- `cleanupOrphanedStructures(municipalityId, areaId, unitId)`: for
each non-empty cleared id, scan the whole grid and remove the entity
from the registry when no tile references it any more. -/
def cleanupOrphanedStructures (st : GameState) (municipalityId areaId unitId : String) :
    GameState :=
  let st1 :=
    if municipalityId != "" && !(stillUsed st.grid (fun t => t.municipalityId) municipalityId) then
      { st with registry := { st.registry with municipalities :=
          (MunicipalityManager.removeMunicipality st.registry.municipalities municipalityId).2 } }
    else st
  let st2 :=
    if areaId != "" && !(stillUsed st1.grid (fun t => t.areaId) areaId) then
      { st1 with registry := { st1.registry with municipalities :=
          (MunicipalityManager.removeArea st1.registry.municipalities areaId).2 } }
    else st1
  if unitId != "" && !(stillUsed st2.grid (fun t => t.unitId) unitId) then
    { st2 with registry := { st2.registry with municipalities :=
        (MunicipalityManager.removeUnit st2.registry.municipalities unitId).2 } }
  else st2

/-- `clearTile(tile, x, y)`: remember the tile's ids, remove any school
covering the tile (clearing its whole footprint), reset the tile to the
default state, then run the orphan cleanup on the remembered ids. -/
def clearTile (st : GameState) (x y : ℤ) : GameState :=
  let tile := st.grid x y
  let clearedMunicipalityId := tile.municipalityId
  let clearedAreaId := tile.areaId
  let clearedUnitId := tile.unitId
  let st1 :=
    if tile.hasSchool then
      let res := SchoolService.removeSchool st.grid st.schoolState x y
      { st with grid := res.2.1, schoolState := res.2.2 }
    else st
  let st2 := { st1 with grid := updateTile st1.grid x y (fun t =>
      { t with municipalityId := "", areaId := "", unitId := "", hasSchool := false }) }
  cleanupOrphanedStructures st2 clearedMunicipalityId clearedAreaId clearedUnitId

end MainScene

/-- One paint action of the listed paint-mode operations, applied at a
grid position (as dispatched by `paintAt` for the active mode). -/
inductive PaintOp where
  | mun (x y : ℤ)
  | area (x y : ℤ)
  | unit (x y : ℤ)
  | school (x y : ℤ)
  | clear (x y : ℤ)

def applyPaintOp (st : GameState) : PaintOp → GameState
  | .mun x y => MainScene.paintMunicipality st x y
  | .area x y => MainScene.paintArea st x y
  | .unit x y => MainScene.paintUnit st x y
  | .school x y => MainScene.paintSchool st x y
  | .clear x y => MainScene.clearTile st x y

/-! ## Claim-side specification of the auto-placement search (C4)

These definitions transcribe the claim's description of
`placeSchoolAuto` / `findBestSchoolPosition`; the refinement theorem
compares them with the embedding above. -/

namespace PlacementSpec

/-- The claim's acceptance condition for a candidate top-left corner
`p`: every covered tile is in bounds, has no school, and has the same
non-empty `unitId` as the clicked tile. -/
def accepted (g : Grid) (clickX clickY : ℤ) (w h : ℕ) (p : ℤ × ℤ) : Prop :=
  ∀ (dx : ℕ), dx ∈ List.range w → ∀ (dy : ℕ), dy ∈ List.range h →
    GridService.isValidPosition (p.1 + dx) (p.2 + dy) = true ∧
    (g (p.1 + dx) (p.2 + dy)).hasSchool = false ∧
    (g (p.1 + dx) (p.2 + dy)).unitId = (g clickX clickY).unitId ∧
    (g clickX clickY).unitId ≠ ""

instance (g : Grid) (clickX clickY : ℤ) (w h : ℕ) (p : ℤ × ℤ) :
    Decidable (accepted g clickX clickY w h p) := by
  unfold accepted
  infer_instance

/-- "Exactly the top-left positions that put the clicked tile at some
offset inside the footprint", in the enumeration order of the source
(`dx` outer, `dy` inner). -/
def candidates (clickX clickY : ℤ) (w h : ℕ) : List (ℤ × ℤ) :=
  (List.range w).flatMap fun (dx : ℕ) =>
    (List.range h).map fun (dy : ℕ) => (clickX - dx, clickY - dy)

/-- The accepted candidates, in enumeration order. -/
def acceptedList (g : Grid) (clickX clickY : ℤ) (w h : ℕ) : List (ℤ × ℤ) :=
  (candidates clickX clickY w h).filter fun p =>
    decide (accepted g clickX clickY w h p)

/-- The claim's selection: among accepted positions, the one minimising
the Manhattan distance from the clicked tile to the footprint's centre,
ties broken by enumeration order — i.e. the first list element whose
score is a minimum. -/
def bestPosition (g : Grid) (clickX clickY : ℤ) (w h : ℕ) : Option (ℤ × ℤ) :=
  (acceptedList g clickX clickY w h).find? fun p =>
    decide (∀ q ∈ acceptedList g clickX clickY w h,
      SchoolService.distanceToCenter w h clickX clickY p.1 p.2 ≤
        SchoolService.distanceToCenter w h clickX clickY q.1 q.2)

/-- The claim's overall choice: try HIGH 4×3, MIDDLE 3×3, ELEMENTARY
2×2 in that order, returning the school type together with the chosen
top-left corner, or `none` when no size has an accepted position. -/
def autoChoice (g : Grid) (clickX clickY : ℤ) : Option (SchoolType × ℤ × ℤ) :=
  [SchoolType.HIGH, SchoolType.MIDDLE, SchoolType.ELEMENTARY].findSome? fun t =>
    (bestPosition g clickX clickY t.sizeWidth t.sizeHeight).map fun p => (t, p.1, p.2)

end PlacementSpec

/-! ## The strict-nesting invariant (C2) -/

/-- The hierarchy invariant of a single tile: a non-empty `unitId`
needs a non-empty `areaId`, which needs a non-empty
`municipalityId`. -/
def tileNestOK (t : Tile) : Prop :=
  (t.unitId ≠ "" → t.areaId ≠ "") ∧ (t.areaId ≠ "" → t.municipalityId ≠ "")

instance (t : Tile) : Decidable (tileNestOK t) := by
  unfold tileNestOK
  infer_instance

/-- The invariant over every cell of the grid (out-of-bounds cells of
the total-function model included; they stay empty under all
operations, and the claims only read the valid ones). -/
def gridNestOK (g : Grid) : Prop := ∀ a b : ℤ, tileNestOK (g a b)

/-! ## Registry measures and membership (C3, C8) -/

def munIds (l : List MunicipalityDef) : List String := l.map (fun m => m.id)

def areaIdsOf (l : List AreaDef) : List String := l.map (fun a => a.id)

def unitIdsOfUnits (l : List UnitDef) : List String := l.map (fun u => u.id)

def unitIdsOfAreas (l : List AreaDef) : List String :=
  (l.flatMap (fun a => a.units)).map (fun u => u.id)

def allAreaIds (l : List MunicipalityDef) : List String :=
  (l.flatMap (fun m => m.areas)).map (fun a => a.id)

def allUnitIds (l : List MunicipalityDef) : List String :=
  ((l.flatMap (fun m => m.areas)).flatMap (fun a => a.units)).map (fun u => u.id)

/-- Number of municipalities in a game state. -/
def munCount (st : GameState) : ℕ := st.registry.municipalities.length

/-- Total number of areas in a game state. -/
def areaCount (st : GameState) : ℕ := (allAreaIds st.registry.municipalities).length

/-- Total number of units in a game state. -/
def unitCount (st : GameState) : ℕ := (allUnitIds st.registry.municipalities).length

/-- A tile of the actual grid references an id through the field
selected by `f`. -/
def tileRefs (g : Grid) (f : Tile → String) (id : String) : Prop :=
  ∃ p q : ℤ, GridService.isValidPosition p q = true ∧ f (g p q) = id

/-- Bounded check of a tile predicate over the whole grid (used to
state grid/registry consistency hypotheses decidably). -/
def allValidTiles (g : Grid) (p : Tile → Bool) : Bool :=
  (List.range MainScene.gridWidth).all fun (x : ℕ) =>
    (List.range MainScene.gridHeight).all fun (y : ℕ) => p (g (x : ℤ) (y : ℤ))

/-! ## Save data validation (`game-data.service.ts`) -/

/-- A parsed JSON value (the result of `JSON.parse` in `loadGameData`),
extended with `undefined` as the result of absent-property access.
Numbers are modelled as integers: the only numeric operations performed
on save data by the validation are `typeof x === 'number'` and
truthiness, for which the exact numeric domain is irrelevant. -/
inductive JsVal where
  | undefined
  | null
  | bool (b : Bool)
  | num (n : ℤ)
  | str (s : String)
  | arr (elems : List JsVal)
  | obj (fields : List (String × JsVal))

namespace JsVal

/-- Property access `v[k]`: the field of an object, `undefined`
otherwise.  (In JS, property access on `null`/`undefined` throws; the
source only dereferences `data` and `data.metadata` behind truthiness
guards, so the total model returning `undefined` agrees with it on
every reachable access.) -/
def prop : JsVal → String → JsVal
  | .obj fields, k =>
    match fields.find? (fun f => f.1 == k) with
    | some f => f.2
    | none => .undefined
  | _, _ => .undefined

/-- `typeof v === 'string'`. -/
def isString : JsVal → Bool
  | .str _ => true
  | _ => false

/-- `typeof v === 'number'`. -/
def isNumber : JsVal → Bool
  | .num _ => true
  | _ => false

/-- `Array.isArray(v)`. -/
def isArray : JsVal → Bool
  | .arr _ => true
  | _ => false

/-- JS truthiness. -/
def truthy : JsVal → Bool
  | .undefined => false
  | .null => false
  | .bool b => b
  | .num n => n != 0
  | .str s => s != ""
  | .arr _ => true
  | .obj _ => true

end JsVal

namespace GameDataService

/-- `validateSaveData(data)`:
`data && typeof data.version === 'string' && typeof data.timestamp ===
'string' && Array.isArray(data.grid) && Array.isArray(data.municipalities)
&& Array.isArray(data.schools) && data.metadata && typeof
data.metadata.gridSize === 'number'`. -/
def validateSaveData (data : JsVal) : Bool :=
  data.truthy &&
  (data.prop "version").isString &&
  (data.prop "timestamp").isString &&
  (data.prop "grid").isArray &&
  (data.prop "municipalities").isArray &&
  (data.prop "schools").isArray &&
  (data.prop "metadata").truthy &&
  ((data.prop "metadata").prop "gridSize").isNumber

/-- `loadGameData`, from the point where the saved JSON has been read
and parsed: validate, and either restore or reject.  The restore step
(`restoreGameState`, which calls `gridService.loadGrid`,
`municipalityManager.loadMunicipalities` and `schoolService.loadSchools`)
is passed in as a function: `GridService.loadGrid` is absent from the
captured `grid.service.ts` (see `MainScene.gridWidth`), and per the
spec the step "restores" the saved grid, municipalities and schools
into the in-memory state.  Reading `localStorage` and `JSON.parse`
failures are environmental and outside the model (both also return
`false` without touching the game state). -/
def loadGameData (restore : JsVal → GameState → GameState) (data : JsVal)
    (st : GameState) : Bool × GameState :=
  if validateSaveData data then (true, restore data st) else (false, st)

/-- The claim's list of validation conditions, transcribed: version and
timestamp are strings, grid, municipalities and schools are arrays, and
`metadata.gridSize` is a number. -/
def claimedSaveDataOK (data : JsVal) : Prop :=
  (data.prop "version").isString = true ∧
  (data.prop "timestamp").isString = true ∧
  (data.prop "grid").isArray = true ∧
  (data.prop "municipalities").isArray = true ∧
  (data.prop "schools").isArray = true ∧
  ((data.prop "metadata").prop "gridSize").isNumber = true

instance (data : JsVal) : Decidable (claimedSaveDataOK data) := by
  unfold claimedSaveDataOK
  infer_instance

end GameDataService

/-! ## School-service operation sequences (C9) -/

/-- One public mutating operation of the school service. -/
inductive SchoolOp where
  | place (x y : ℤ) (schoolType : Option SchoolType) (name : Option String)
  | auto (x y : ℤ) (name : Option String)
  | addStudents (id : String) (n : ℤ)
  | removeStudents (id : String) (n : ℕ)
  | updateCapacity (id : String) (c : ℤ)

/-- Apply one school-service operation to the grid and school state. -/
def applySchoolOp (gs : Grid × SchoolState) : SchoolOp → Grid × SchoolState
  | .place x y schoolType name =>
    let r := SchoolService.placeSchool gs.1 gs.2 x y schoolType name
    (r.2.1, r.2.2)
  | .auto x y name =>
    let r := SchoolService.placeSchoolAuto gs.1 gs.2 x y name
    (r.2.1, r.2.2)
  | .addStudents id n => (gs.1, (SchoolService.addStudents gs.2 id n).2)
  | .removeStudents id n => (gs.1, (SchoolService.removeStudents gs.2 id (n : ℤ)).2)
  | .updateCapacity id c => (gs.1, (SchoolService.updateSchoolCapacity gs.2 id c).2)

/-- Whether an operation is a capacity update. -/
def SchoolOp.isCapacityUpdate : SchoolOp → Bool
  | .updateCapacity _ _ => true
  | _ => false

/-- A grid entirely covered by one unit (every tile painted
municipality-1 / area-1 / unit-1), used for concrete school-placement
scenarios. -/
def oneUnitGrid : Grid := fun x y =>
  { x := x, y := y, hasSchool := false,
    municipalityId := "municipality-1",
    areaId := "municipality-1-area-1",
    unitId := "municipality-1-area-1-unit-1" }

/-- The operation sequence of the C9 counterexample: place an
elementary school, fill it to its capacity of 150, then shrink the
capacity to 10. -/
def capacityShrinkOps : List SchoolOp :=
  [SchoolOp.place 0 0 (some SchoolType.ELEMENTARY) none,
   SchoolOp.addStudents "school_1" 150,
   SchoolOp.updateCapacity "school_1" 10]

/-! ## Concrete states for the scenario claims -/

/-- Number of tiles of the grid with `hasSchool = true`. -/
def schoolTileCount (g : Grid) : ℕ :=
  ((List.range MainScene.gridWidth).map fun (x : ℕ) =>
    ((List.range MainScene.gridHeight).filter fun (y : ℕ) =>
      (g (x : ℤ) (y : ℤ)).hasSchool).length).sum

/-- The C5 scenario: starting from the initial state, paint exactly
tile `(5, 5)` with a municipality, then an area, then a unit (selecting
each paint mode first, as the UI does). -/
def C5state : GameState :=
  let s1 := MainScene.setPaintMode initialState PaintMode.municipality
  let s2 := MainScene.paintMunicipality s1 5 5
  let s3 := MainScene.setPaintMode s2 PaintMode.area
  let s4 := MainScene.paintArea s3 5 5
  let s5 := MainScene.setPaintMode s4 PaintMode.unit
  MainScene.paintUnit s5 5 5

/-- A state in municipality paint mode with one municipality painted at
`(0, 0)`, so that `currentMunicipalityId` is active (in use). -/
def C8state : GameState :=
  MainScene.paintMunicipality
    (MainScene.setPaintMode initialState PaintMode.municipality) 0 0

/-- A school registry holding one elementary school with 100 of 150
students (for the C6/C10 witnesses). -/
def sampleSchool : School :=
  { id := "school_1", posX := 0, posY := 0, width := 2, height := 2,
    type := SchoolType.ELEMENTARY, name := "Elementary School 1",
    capacity := 150, currentStudents := 100,
    layout := generateSchoolLayout SchoolType.ELEMENTARY }

def sampleSchoolState : SchoolState :=
  { schools := [sampleSchool], schoolCounter := 1 }

/-- A grid whose tiles `(0,0)` and `(1,0)` are painted with the chain
municipality-1 / area-1 / unit-1 and all other tiles are empty (for the
C3 witness: clearing `(0,0)` leaves every id referenced by `(1,0)`). -/
def pairedTileGrid : Grid := fun x y =>
  if (x = 0 ∨ x = 1) ∧ y = 0 then
    { x := x, y := y, hasSchool := false,
      municipalityId := "municipality-1",
      areaId := "municipality-1-area-1",
      unitId := "municipality-1-area-1-unit-1" }
  else initialGrid x y

/-- The registry holding exactly the chain municipality-1 → area-1 →
unit-1. -/
def chainRegistry : Registry :=
  { municipalities :=
      [{ id := "municipality-1", name := "Municipality 1",
         areas :=
           [{ id := "municipality-1-area-1", name := "Area 1",
              municipalityId := "municipality-1",
              units :=
                [{ id := "municipality-1-area-1-unit-1", name := "Unit 1",
                   areaId := "municipality-1-area-1",
                   municipalityId := "municipality-1" }] }] }],
    counter := 2 }

/-- The C3 witness state. -/
def C3state : GameState :=
  { initialState with grid := pairedTileGrid, registry := chainRegistry }

/-- A well-formed save-data value (for the C7 witness). -/
def sampleSaveData : JsVal :=
  JsVal.obj [("version", JsVal.str "1.0.0"), ("timestamp", JsVal.str "2024-01-01"),
    ("grid", JsVal.arr []), ("municipalities", JsVal.arr []), ("schools", JsVal.arr []),
    ("municipalityCounter", JsVal.num 1), ("theme", JsVal.str "light"),
    ("metadata", JsVal.obj [("gridSize", JsVal.num 10)])]

/-- Replace the school list of a school-service state (record update,
used to keep statements on one line). -/
def SchoolState.withSchools (ss : SchoolState) (l : List School) : SchoolState :=
  { ss with schools := l }

/-! # Theorems -/

/-- Rounding a rational that is (provably) an integer recovers that
integer: `Math.round(k) = k`. -/
theorem RenderingService.jsRound_coe (q : ℚ) (a : ℤ) (h : q = a) :
    RenderingService.jsRound q = a := by
  subst h
  unfold RenderingService.jsRound
  rw [Int.floor_int_add]
  norm_num

/-- **C1.** For every grid cell `(x, y)` with `0 ≤ x < 10` and
`0 ≤ y < 10`, every zoom value in `[0.5, 2.0]`, and any map offset and
camera pan offset, `screenToGrid (gridToScreen (x, y))` returns exactly
`(x, y)`. -/
theorem C1_screenToGrid_roundtrip (st : RenderState) (x y : ℤ)
    (hx0 : 0 ≤ x) (hx : x < 10) (hy0 : 0 ≤ y) (hy : y < 10)
    (hz1 : 1/2 ≤ st.zoom) (hz2 : st.zoom ≤ 2) :
    RenderingService.screenToGrid st
      (RenderingService.gridToScreen st x y).1
      (RenderingService.gridToScreen st x y).2 = (x, y) := by
  have hz : st.zoom ≠ 0 := by
    intro h
    rw [h] at hz1
    norm_num at hz1
  unfold RenderingService.screenToGrid RenderingService.gridToScreen TILE_WIDTH TILE_HEIGHT
  simp only [Prod.mk.injEq]
  constructor
  · apply RenderingService.jsRound_coe
    field_simp
    ring
  · apply RenderingService.jsRound_coe
    field_simp
    ring

/-- Witness for C1 at the concrete render state of the game's start
(map offset `(400, 100)`, zoom `1/2`, camera pan `(5, -3)`) and cell
`(3, 7)`. -/
theorem C1_screenToGrid_roundtrip_witness :
    (0 ≤ (3 : ℤ)) ∧ (3 : ℤ) < 10 ∧ (0 ≤ (7 : ℤ)) ∧ (7 : ℤ) < 10 ∧
    ((1 : ℚ)/2 ≤ 1/2) ∧ ((1 : ℚ)/2 ≤ 2) ∧
    RenderingService.screenToGrid ⟨400, 100, 1/2, 5, -3⟩
      (RenderingService.gridToScreen ⟨400, 100, 1/2, 5, -3⟩ 3 7).1
      (RenderingService.gridToScreen ⟨400, 100, 1/2, 5, -3⟩ 3 7).2 = (3, 7) :=
  ⟨by norm_num, by norm_num, by norm_num, by norm_num, le_refl _, by norm_num,
   C1_screenToGrid_roundtrip ⟨400, 100, 1/2, 5, -3⟩ 3 7 (by norm_num) (by norm_num)
     (by norm_num) (by norm_num) (le_refl _) (by norm_num)⟩

/-- **C6.** For every school id in the registry and every count `n`:
when `currentStudents + n` exceeds the capacity, `addStudents` returns
`false` and leaves the whole school state unchanged; otherwise it
returns `true` and increases that school's `currentStudents` by `n`
(replacing the school in place, all other entries untouched).  For an
unknown id it returns `false` and changes nothing. -/
theorem C6_addStudents_capacity_clamp (ss : SchoolState) (schoolId : String) (n : ℤ) :
    (ss.schools.find? (fun s => s.id == schoolId) = none →
      SchoolService.addStudents ss schoolId n = (false, ss)) ∧
    (∀ school, ss.schools.find? (fun s => s.id == schoolId) = some school →
      (school.capacity < school.currentStudents + n →
        SchoolService.addStudents ss schoolId n = (false, ss)) ∧
      (school.currentStudents + n ≤ school.capacity →
        SchoolService.addStudents ss schoolId n =
          (true, ss.withSchools (SchoolService.replaceSchool ss.schools schoolId
              ({ school with currentStudents := school.currentStudents + n }))))) := by
  refine ⟨fun hnone => ?_, fun school hfind => ⟨fun hover => ?_, fun hle => ?_⟩⟩
  · unfold SchoolService.addStudents
    rw [hnone]
  · unfold SchoolService.addStudents
    rw [hfind]
    have : ¬ (school.currentStudents + n ≤ school.capacity) := by omega
    simp only [this, if_false, ite_false]
  · unfold SchoolService.addStudents
    rw [hfind]
    simp only [hle, if_true, ite_true]
    rfl

/-- Witness for C6: with one school at 100 of 150 students, adding 60
overflows and is rejected without mutation, while adding 50 succeeds
and sets the count to 150. -/
theorem C6_addStudents_capacity_clamp_witness :
    sampleSchoolState.schools.find? (fun s => s.id == "school_1") = some sampleSchool ∧
    sampleSchool.capacity < sampleSchool.currentStudents + 60 ∧
    SchoolService.addStudents sampleSchoolState "school_1" 60 = (false, sampleSchoolState) ∧
    SchoolService.addStudents sampleSchoolState "school_1" 50 =
      (true, sampleSchoolState.withSchools (SchoolService.replaceSchool
          sampleSchoolState.schools "school_1"
          ({ sampleSchool with currentStudents := sampleSchool.currentStudents + 50 }))) :=
  ⟨by decide, by decide,
   ((C6_addStudents_capacity_clamp sampleSchoolState "school_1" 60).2 sampleSchool
     (by decide)).1 (by decide),
   ((C6_addStudents_capacity_clamp sampleSchoolState "school_1" 50).2 sampleSchool
     (by decide)).2 (by decide)⟩

/-- **C10.** For every school id in the registry and every count `n`
(including counts exceeding the current student count), `removeStudents`
returns `true` and sets the school's `currentStudents` to
`max 0 (currentStudents - n)` — which is never negative; it returns
`false` and changes nothing exactly when the id is unknown. -/
theorem C10_removeStudents_clamps_at_zero (ss : SchoolState) (schoolId : String) (n : ℤ) :
    (ss.schools.find? (fun s => s.id == schoolId) = none →
      SchoolService.removeStudents ss schoolId n = (false, ss)) ∧
    (∀ school, ss.schools.find? (fun s => s.id == schoolId) = some school →
      SchoolService.removeStudents ss schoolId n =
        (true, ss.withSchools (SchoolService.replaceSchool ss.schools schoolId
            ({ school with currentStudents := max 0 (school.currentStudents - n) }))) ∧
      0 ≤ max 0 (school.currentStudents - n)) := by
  refine ⟨fun hnone => ?_, fun school hfind => ⟨?_, le_max_left 0 _⟩⟩
  · unfold SchoolService.removeStudents
    rw [hnone]
  · unfold SchoolService.removeStudents
    rw [hfind]
    rfl

/-- Witness for C10: removing 500 from a school with 100 students
succeeds and clamps the count at zero. -/
theorem C10_removeStudents_clamps_at_zero_witness :
    sampleSchoolState.schools.find? (fun s => s.id == "school_1") = some sampleSchool ∧
    sampleSchool.currentStudents < 500 ∧
    SchoolService.removeStudents sampleSchoolState "school_1" 500 =
      (true, sampleSchoolState.withSchools (SchoolService.replaceSchool
          sampleSchoolState.schools "school_1"
          ({ sampleSchool with currentStudents := max 0 (sampleSchool.currentStudents - 500) }))) :=
  ⟨by decide, by decide,
   ((C10_removeStudents_clamps_at_zero sampleSchoolState "school_1" 500).2 sampleSchool
     (by decide)).1⟩

/-- Membership after replacing the first id-match: every element of the
result was already present or is the replacement. -/
theorem mem_replaceSchool {l : List School} {id : String} {s2 s : School}
    (h : s ∈ SchoolService.replaceSchool l id s2) : s ∈ l ∨ s = s2 := by
  induction l with
  | nil => simp [SchoolService.replaceSchool] at h
  | cons a rest ih =>
    unfold SchoolService.replaceSchool at h
    by_cases ha : (a.id == id) = true
    · rw [if_pos ha] at h
      rcases List.mem_cons.mp h with h1 | h1
      · exact Or.inr h1
      · exact Or.inl (List.mem_cons_of_mem a h1)
    · rw [if_neg ha] at h
      rcases List.mem_cons.mp h with h1 | h1
      · exact Or.inl (h1 ▸ List.mem_cons_self a rest)
      · rcases ih h1 with h2 | h2
        · exact Or.inl (List.mem_cons_of_mem a h2)
        · exact Or.inr h2

/-- The strengthened per-school invariant used for C9: capacities are
nonnegative and student counts fit under them. -/
def schoolsBounded (ss : SchoolState) : Prop :=
  ∀ s ∈ ss.schools, 0 ≤ s.capacity ∧ s.currentStudents ≤ s.capacity

theorem schoolsBounded_placeSchool (g : Grid) (ss : SchoolState) (x y : ℤ)
    (schoolType : Option SchoolType) (name : Option String)
    (h : schoolsBounded ss) :
    schoolsBounded (SchoolService.placeSchool g ss x y schoolType name).2.2 := by
  unfold SchoolService.placeSchool
  dsimp only
  split
  · intro s hs
    rcases List.mem_append.mp hs with h1 | h1
    · exact h s h1
    · rcases List.mem_singleton.mp h1 with rfl
      constructor
      · show (0 : ℤ) ≤ (schoolType.getD SchoolType.ELEMENTARY).typeCapacity
        cases schoolType.getD SchoolType.ELEMENTARY <;> decide
      · show (0 : ℤ) ≤ (schoolType.getD SchoolType.ELEMENTARY).typeCapacity
        cases schoolType.getD SchoolType.ELEMENTARY <;> decide
  · exact h

theorem schoolsBounded_placeSchoolAuto (g : Grid) (ss : SchoolState) (x y : ℤ)
    (name : Option String) (h : schoolsBounded ss) :
    schoolsBounded (SchoolService.placeSchoolAuto g ss x y name).2.2 := by
  unfold SchoolService.placeSchoolAuto
  split
  · exact schoolsBounded_placeSchool _ _ _ _ _ _ h
  · split
    · exact schoolsBounded_placeSchool _ _ _ _ _ _ h
    · split
      · exact schoolsBounded_placeSchool _ _ _ _ _ _ h
      · exact h

theorem schoolsBounded_addStudents (ss : SchoolState) (id : String) (n : ℤ)
    (h : schoolsBounded ss) :
    schoolsBounded (SchoolService.addStudents ss id n).2 := by
  unfold SchoolService.addStudents
  split
  · rename_i school hfind
    dsimp only
    split
    · rename_i hle
      intro s hs
      rcases mem_replaceSchool hs with h1 | h1
      · exact h s h1
      · subst h1
        exact ⟨(h school (List.mem_of_find?_eq_some hfind)).1, hle⟩
    · exact h
  · exact h

theorem schoolsBounded_removeStudents (ss : SchoolState) (id : String) (n : ℤ)
    (hn : 0 ≤ n) (h : schoolsBounded ss) :
    schoolsBounded (SchoolService.removeStudents ss id n).2 := by
  unfold SchoolService.removeStudents
  split
  · rename_i school hfind
    intro s hs
    rcases mem_replaceSchool hs with h1 | h1
    · exact h s h1
    · subst h1
      have hb := h school (List.mem_of_find?_eq_some hfind)
      exact ⟨hb.1, by simp only [max_le_iff]; omega⟩
  · exact h

/-- **C9 (counterexample).** The sequence "place an elementary school,
fill it to 150 students, shrink the capacity to 10" — three school
service operations — leaves a school with more students than capacity,
so the invariant `currentStudents ≤ capacity` does not survive
arbitrary operation sequences. -/
theorem C9_capacity_invariant_counterexample :
    ¬ ∀ s ∈ (capacityShrinkOps.foldl applySchoolOp
        (oneUnitGrid, initialSchoolState)).2.schools,
      s.currentStudents ≤ s.capacity := by
  decide

/-- **C9 (amended).** `currentStudents ≤ capacity` holds for every
school after any sequence of `placeSchool`, `placeSchoolAuto`,
`addStudents` and `removeStudents` (with nonnegative remove counts)
starting from the service's initial state; `updateSchoolCapacity` is
excluded, since it can clamp the capacity below the current student
count. -/
theorem C9_capacity_invariant_amended (g : Grid) (ops : List SchoolOp)
    (hops : ∀ op ∈ ops, op.isCapacityUpdate = false) :
    ∀ s ∈ (ops.foldl applySchoolOp (g, initialSchoolState)).2.schools,
      s.currentStudents ≤ s.capacity := by
  have main : ∀ (ops2 : List SchoolOp) (gs : Grid × SchoolState),
      (∀ op ∈ ops2, op.isCapacityUpdate = false) →
      schoolsBounded gs.2 →
      schoolsBounded (ops2.foldl applySchoolOp gs).2 := by
    intro ops2
    induction ops2 with
    | nil => exact fun gs _ h => h
    | cons op rest ih =>
      intro gs hops2 h
      have hop := hops2 op (List.mem_cons_self op rest)
      have hrest : ∀ op2 ∈ rest, op2.isCapacityUpdate = false :=
        fun op2 h2 => hops2 op2 (List.mem_cons_of_mem op h2)
      refine ih (applySchoolOp gs op) hrest ?_
      cases op with
      | place x y t name => exact schoolsBounded_placeSchool _ _ _ _ _ _ h
      | auto x y name => exact schoolsBounded_placeSchoolAuto _ _ _ _ _ h
      | addStudents id n => exact schoolsBounded_addStudents _ _ _ h
      | removeStudents id n =>
        exact schoolsBounded_removeStudents _ _ _ (Int.natCast_nonneg n) h
      | updateCapacity id c => simp [SchoolOp.isCapacityUpdate] at hop
  intro s hs
  exact (main ops (g, initialSchoolState) hops (by intro s hs; simp [initialSchoolState] at hs) s hs).2

/-- Witness for the amended C9: placing a school, adding 150 students
and removing 40 keeps every student count within capacity. -/
theorem C9_capacity_invariant_amended_witness :
    (∀ op ∈ [SchoolOp.place 0 0 (some SchoolType.ELEMENTARY) none,
        SchoolOp.addStudents "school_1" 150, SchoolOp.removeStudents "school_1" 40],
      op.isCapacityUpdate = false) ∧
    ∀ s ∈ ([SchoolOp.place 0 0 (some SchoolType.ELEMENTARY) none,
        SchoolOp.addStudents "school_1" 150,
        SchoolOp.removeStudents "school_1" 40].foldl applySchoolOp
        (oneUnitGrid, initialSchoolState)).2.schools,
      s.currentStudents ≤ s.capacity :=
  ⟨by decide, C9_capacity_invariant_amended oneUnitGrid _ (by decide)⟩

/-- **C5 (counterexample).** In the claimed scenario — only tile
`(5, 5)` painted with a municipality, an area and a unit — school
auto-placement at `(5, 5)` does *not* place an elementary school: every
candidate footprint, the 2×2 included, covers tiles outside the clicked
tile's unit, so the search returns `null`. -/
theorem C5_auto_placement_counterexample :
    ¬ ∃ s : School,
      (SchoolService.placeSchoolAuto C5state.grid C5state.schoolState 5 5 none).1 = some s ∧
      s.type = SchoolType.ELEMENTARY := by
  have h : (SchoolService.placeSchoolAuto C5state.grid C5state.schoolState 5 5 none).1 = none := by
    decide
  rintro ⟨s, hs, -⟩
  rw [h] at hs
  cases hs

/-- **C5 (amended).** In that scenario the clicked tile does carry a
unit, but auto-placement at `(5, 5)` returns `null` and marks no tile
with a school: every footprint size (HIGH 4×3, MIDDLE 3×3, ELEMENTARY
2×2) requires all covered tiles to share the clicked tile's unit, and
only `(5, 5)` itself is painted. -/
theorem C5_auto_placement_amended :
    (C5state.grid 5 5).unitId ≠ "" ∧
    (SchoolService.placeSchoolAuto C5state.grid C5state.schoolState 5 5 none).1 = none ∧
    schoolTileCount (SchoolService.placeSchoolAuto C5state.grid C5state.schoolState 5 5 none).2.1 = 0 := by
  refine ⟨by decide, by decide, by decide⟩

theorem str_append_ne_empty_left (s t : String) (hs : s ≠ "") : s ++ t ≠ "" := by
  intro hc
  apply hs
  have hd : (s ++ t).data = s.data ++ t.data := String.data_append s t
  rw [hc] at hd
  have h2 := List.append_eq_nil.mp hd.symm
  cases s
  simp_all

theorem optTruthy_some (s : String) : optTruthy (some s) = (s != "") := rfl

def munFlag (st : GameState) : ℕ := if optTruthy st.currentMunicipalityId then 0 else 1

theorem paintMunicipality_measure (st : GameState) (x y : ℤ) :
    munCount (MainScene.paintMunicipality st x y) + munFlag (MainScene.paintMunicipality st x y)
      = munCount st + munFlag st := by
  unfold MainScene.paintMunicipality MunicipalityManager.addMunicipality
  dsimp only
  split
  · split
    · rename_i hfalsy
      have hid : ("municipality-" ++ toString st.registry.counter) ≠ "" :=
        str_append_ne_empty_left _ _ (by decide)
      have hfl : optTruthy st.currentMunicipalityId = false := by
        revert hfalsy
        cases optTruthy st.currentMunicipalityId <;> simp
      simp only [munCount, munFlag, optTruthy_some, List.length_append, hfl,
        List.length_singleton, if_false, Bool.false_eq_true, ite_false]
      have hb : (("municipality-" ++ toString st.registry.counter) != "") = true :=
        bne_iff_ne.mpr hid
      simp only [hb, if_true, ite_true]
    · rfl
  · rfl

theorem str_append_ne_empty_right (s t : String) (ht : t ≠ "") : s ++ t ≠ "" := by
  intro hc
  apply ht
  have hd : (s ++ t).data = s.data ++ t.data := String.data_append s t
  rw [hc] at hd
  have h2 := List.append_eq_nil.mp hd.symm
  cases t
  simp_all

theorem addAreaGo_count (l : List MunicipalityDef) (mid : String) :
    (allAreaIds (MunicipalityManager.addAreaGo l mid).2).length
      = (allAreaIds l).length +
        (if (MunicipalityManager.addAreaGo l mid).1.isSome then 1 else 0) := by
  induction l with
  | nil => simp [MunicipalityManager.addAreaGo, allAreaIds]
  | cons m rest ih =>
    unfold MunicipalityManager.addAreaGo
    by_cases hm : (m.id == mid) = true
    · simp only [hm, if_true, ite_true]
      simp [allAreaIds, List.flatMap_cons, List.length_append]
      omega
    · simp only [hm, if_false, Bool.false_eq_true, ite_false]
      rcases hrec : MunicipalityManager.addAreaGo rest mid with ⟨res, rest2⟩
      rw [hrec] at ih
      simp only [allAreaIds, List.flatMap_cons, List.map_append, List.length_append] at ih ⊢
      omega

theorem addAreaGo_id_ne (l : List MunicipalityDef) (mid : String) (a : AreaDef)
    (h : (MunicipalityManager.addAreaGo l mid).1 = some a) : a.id ≠ "" := by
  induction l with
  | nil => simp [MunicipalityManager.addAreaGo] at h
  | cons m rest ih =>
    unfold MunicipalityManager.addAreaGo at h
    by_cases hm : (m.id == mid) = true
    · simp only [hm, if_true, ite_true] at h
      have := Option.some.inj h
      subst this
      show mid ++ "-area-" ++ toString (m.areas.length + 1) ≠ ""
      exact str_append_ne_empty_left (mid ++ "-area-") (toString (m.areas.length + 1))
        (str_append_ne_empty_right mid "-area-" (by decide))
    · simp only [hm, if_false, Bool.false_eq_true, ite_false] at h
      rcases hrec : MunicipalityManager.addAreaGo rest mid with ⟨res, rest2⟩
      rw [hrec] at h ih
      exact ih h

theorem addUnitIntoAreas_count (as : List AreaDef) (mid aid : String) :
    (unitIdsOfAreas (MunicipalityManager.addUnitIntoAreas as mid aid).2).length
      = (unitIdsOfAreas as).length +
        (if (MunicipalityManager.addUnitIntoAreas as mid aid).1.isSome then 1 else 0) := by
  induction as with
  | nil => simp [MunicipalityManager.addUnitIntoAreas, unitIdsOfAreas]
  | cons a rest ih =>
    unfold MunicipalityManager.addUnitIntoAreas
    by_cases ha : (a.id == aid) = true
    · simp only [ha, if_true, ite_true]
      simp [unitIdsOfAreas, List.flatMap_cons, List.length_append]
      omega
    · simp only [ha, if_false, Bool.false_eq_true, ite_false]
      rcases hrec : MunicipalityManager.addUnitIntoAreas rest mid aid with ⟨res, rest2⟩
      rw [hrec] at ih
      simp only [unitIdsOfAreas, List.flatMap_cons, List.map_append, List.length_append] at ih ⊢
      omega

theorem addUnitIntoAreas_id_ne (as : List AreaDef) (mid aid : String) (u : UnitDef)
    (h : (MunicipalityManager.addUnitIntoAreas as mid aid).1 = some u) : u.id ≠ "" := by
  induction as with
  | nil => simp [MunicipalityManager.addUnitIntoAreas] at h
  | cons a rest ih =>
    unfold MunicipalityManager.addUnitIntoAreas at h
    by_cases ha : (a.id == aid) = true
    · simp only [ha, if_true, ite_true] at h
      have := Option.some.inj h
      subst this
      show aid ++ "-unit-" ++ toString (a.units.length + 1) ≠ ""
      exact str_append_ne_empty_left (aid ++ "-unit-") (toString (a.units.length + 1))
        (str_append_ne_empty_right aid "-unit-" (by decide))
    · simp only [ha, if_false, Bool.false_eq_true, ite_false] at h
      rcases hrec : MunicipalityManager.addUnitIntoAreas rest mid aid with ⟨res, rest2⟩
      rw [hrec] at h ih
      exact ih h

theorem allUnitIds_cons (m : MunicipalityDef) (rest : List MunicipalityDef) :
    allUnitIds (m :: rest) = unitIdsOfAreas m.areas ++ allUnitIds rest := by
  simp [allUnitIds, unitIdsOfAreas, List.flatMap_cons, List.flatMap_append]

theorem addUnitGo_count (l : List MunicipalityDef) (mid aid : String) :
    (allUnitIds (MunicipalityManager.addUnitGo l mid aid).2).length
      = (allUnitIds l).length +
        (if (MunicipalityManager.addUnitGo l mid aid).1.isSome then 1 else 0) := by
  induction l with
  | nil => simp [MunicipalityManager.addUnitGo, allUnitIds]
  | cons m rest ih =>
    unfold MunicipalityManager.addUnitGo
    by_cases hm : (m.id == mid) = true
    · simp only [hm, if_true, ite_true]
      rcases hrec : MunicipalityManager.addUnitIntoAreas m.areas mid aid with ⟨res, as2⟩
      have hcnt := addUnitIntoAreas_count m.areas mid aid
      rw [hrec] at hcnt
      simp only [allUnitIds_cons, List.length_append]
      simp only [allUnitIds_cons] at hcnt ⊢
      show (unitIdsOfAreas as2).length + (allUnitIds rest).length = _
      simp only [hcnt]
      omega
    · simp only [hm, if_false, Bool.false_eq_true, ite_false]
      rcases hrec : MunicipalityManager.addUnitGo rest mid aid with ⟨res, rest2⟩
      rw [hrec] at ih
      simp only [allUnitIds_cons, List.length_append, ih]
      omega

theorem addUnitGo_id_ne (l : List MunicipalityDef) (mid aid : String) (u : UnitDef)
    (h : (MunicipalityManager.addUnitGo l mid aid).1 = some u) : u.id ≠ "" := by
  induction l with
  | nil => simp [MunicipalityManager.addUnitGo] at h
  | cons m rest ih =>
    unfold MunicipalityManager.addUnitGo at h
    by_cases hm : (m.id == mid) = true
    · simp only [hm, if_true, ite_true] at h
      rcases hrec : MunicipalityManager.addUnitIntoAreas m.areas mid aid with ⟨res, as2⟩
      rw [hrec] at h
      exact addUnitIntoAreas_id_ne m.areas mid aid u (by rw [hrec]; exact h)
    · simp only [hm, if_false, Bool.false_eq_true, ite_false] at h
      rcases hrec : MunicipalityManager.addUnitGo rest mid aid with ⟨res, rest2⟩
      rw [hrec] at h ih
      exact ih h

def areaFlag (st : GameState) : ℕ := if optTruthy st.currentAreaId then 0 else 1

def unitFlag (st : GameState) : ℕ := if optTruthy st.currentUnitId then 0 else 1

theorem paintArea_measure (st : GameState) (x y : ℤ) :
    areaCount (MainScene.paintArea st x y) + areaFlag (MainScene.paintArea st x y)
      = areaCount st + areaFlag st := by
  unfold MainScene.paintArea MunicipalityManager.addArea
  dsimp only
  split
  · split
    · rename_i hfalsy
      have hfl : optTruthy st.currentAreaId = false := by
        revert hfalsy
        cases optTruthy st.currentAreaId <;> simp
      rcases hgo : MunicipalityManager.addAreaGo st.registry.municipalities
          ((st.grid x y).municipalityId) with ⟨res, l2⟩
      have hcnt := addAreaGo_count st.registry.municipalities ((st.grid x y).municipalityId)
      rw [hgo] at hcnt
      simp only [hgo]
      cases res with
      | some a =>
        have hid : a.id ≠ "" := by
          apply addAreaGo_id_ne st.registry.municipalities ((st.grid x y).municipalityId)
          rw [hgo]
        have hidb : (a.id != "") = true := bne_iff_ne.mpr hid
        split
        · split
          · split
            · simp only [areaCount, areaFlag, optTruthy_some, hidb, hfl, hcnt]
              simp
            · simp only [areaCount, areaFlag, optTruthy_some, hidb, hfl, hcnt]
              simp
          · simp only [areaCount, areaFlag, optTruthy_some, hidb, hfl, hcnt]
            simp
        · simp only [areaCount, areaFlag, optTruthy_some, hidb, hfl, hcnt]
          simp
      | none =>
        simp only [Option.isSome_none, if_false, Bool.false_eq_true, ite_false] at hcnt
        split
        · split
          · split
            · simp [areaCount, areaFlag, hfl, hcnt]
            · simp [areaCount, areaFlag, hfl, hcnt]
          · simp [areaCount, areaFlag, hfl, hcnt]
        · simp [areaCount, areaFlag, hfl, hcnt]
    · split
      · split
        · split
          · rfl
          · rfl
        · rfl
      · rfl
  · rfl

theorem paintUnit_measure (st : GameState) (x y : ℤ) :
    unitCount (MainScene.paintUnit st x y) + unitFlag (MainScene.paintUnit st x y)
      = unitCount st + unitFlag st := by
  unfold MainScene.paintUnit MunicipalityManager.addUnit
  dsimp only
  split
  · split
    · rename_i hfalsy
      have hfl : optTruthy st.currentUnitId = false := by
        revert hfalsy
        cases optTruthy st.currentUnitId <;> simp
      rcases harea : MunicipalityManager.getAreaById st.registry.municipalities
          ((st.grid x y).areaId) with _ | area
      · simp only [harea, hfl]
        simp
      · simp only [harea]
        rcases hgo : MunicipalityManager.addUnitGo st.registry.municipalities
            area.municipalityId ((st.grid x y).areaId) with ⟨res, l2⟩
        have hcnt := addUnitGo_count st.registry.municipalities area.municipalityId
          ((st.grid x y).areaId)
        rw [hgo] at hcnt
        simp only [hgo]
        cases res with
        | some u =>
          have hid : u.id ≠ "" := by
            apply addUnitGo_id_ne st.registry.municipalities area.municipalityId
              ((st.grid x y).areaId)
            rw [hgo]
          have hidb : (u.id != "") = true := bne_iff_ne.mpr hid
          split
          · split
            · split
              · simp only [unitCount, unitFlag, optTruthy_some, hidb, hfl, hcnt]
                simp
              · simp only [unitCount, unitFlag, optTruthy_some, hidb, hfl, hcnt]
                simp
            · simp only [unitCount, unitFlag, optTruthy_some, hidb, hfl, hcnt]
              simp
          · simp only [unitCount, unitFlag, optTruthy_some, hidb, hfl, hcnt]
            simp
        | none =>
          simp only [Option.isSome_none, if_false, Bool.false_eq_true, ite_false] at hcnt
          split
          · split
            · split
              · simp [unitCount, unitFlag, hfl, hcnt]
              · simp [unitCount, unitFlag, hfl, hcnt]
            · simp [unitCount, unitFlag, hfl, hcnt]
          · simp [unitCount, unitFlag, hfl, hcnt]
    · split
      · split
        · split
          · rfl
          · rfl
        · rfl
      · rfl
  · rfl

theorem foldl_paintMunicipality_measure (drag : List (ℤ × ℤ)) (st : GameState) :
    munCount (drag.foldl (fun s p => MainScene.paintMunicipality s p.1 p.2) st)
        + munFlag (drag.foldl (fun s p => MainScene.paintMunicipality s p.1 p.2) st)
      = munCount st + munFlag st := by
  induction drag generalizing st with
  | nil => rfl
  | cons p rest ih =>
    simp only [List.foldl_cons]
    rw [ih (MainScene.paintMunicipality st p.1 p.2), paintMunicipality_measure]

theorem foldl_paintArea_measure (drag : List (ℤ × ℤ)) (st : GameState) :
    areaCount (drag.foldl (fun s p => MainScene.paintArea s p.1 p.2) st)
        + areaFlag (drag.foldl (fun s p => MainScene.paintArea s p.1 p.2) st)
      = areaCount st + areaFlag st := by
  induction drag generalizing st with
  | nil => rfl
  | cons p rest ih =>
    simp only [List.foldl_cons]
    rw [ih (MainScene.paintArea st p.1 p.2), paintArea_measure]

theorem foldl_paintUnit_measure (drag : List (ℤ × ℤ)) (st : GameState) :
    unitCount (drag.foldl (fun s p => MainScene.paintUnit s p.1 p.2) st)
        + unitFlag (drag.foldl (fun s p => MainScene.paintUnit s p.1 p.2) st)
      = unitCount st + unitFlag st := by
  induction drag generalizing st with
  | nil => rfl
  | cons p rest ih =>
    simp only [List.foldl_cons]
    rw [ih (MainScene.paintUnit st p.1 p.2), paintUnit_measure]

/-- **C8 (counterexample).** In a reachable state where the active
municipality id is in use (`some "municipality-1"`), switching the
paint mode to `area` does *not* preserve the outer level's active id —
`setPaintMode` nulls it.  This refutes the claim that the active ids of
levels outer to the selected one are preserved. -/
theorem C8_setPaintMode_counterexample :
    C8state.currentMunicipalityId = some "municipality-1" ∧
    ¬ ((MainScene.setPaintMode C8state PaintMode.area).currentMunicipalityId
        = C8state.currentMunicipalityId) := by
  constructor
  · decide
  · decide

/-- **C8 (amended).** `setPaintMode(L)` preserves the active id of the
selected level `L` and resets the active ids of the two *other* levels
to null (the opposite of the claimed direction); and any drag in mode
`L` — any sequence of paint calls of level `L` after the mode switch —
creates at most one new boundary entity of level `L`. -/
theorem C8_setPaintMode_amended (st : GameState) (mode : PaintMode) (drag : List (ℤ × ℤ)) :
    ((MainScene.setPaintMode st mode).currentMunicipalityId =
      if mode = PaintMode.municipality then st.currentMunicipalityId else none) ∧
    ((MainScene.setPaintMode st mode).currentAreaId =
      if mode = PaintMode.area then st.currentAreaId else none) ∧
    ((MainScene.setPaintMode st mode).currentUnitId =
      if mode = PaintMode.unit then st.currentUnitId else none) ∧
    (mode = PaintMode.municipality →
      munCount (drag.foldl (fun s p => MainScene.paintMunicipality s p.1 p.2)
        (MainScene.setPaintMode st mode)) ≤ munCount st + 1) ∧
    (mode = PaintMode.area →
      areaCount (drag.foldl (fun s p => MainScene.paintArea s p.1 p.2)
        (MainScene.setPaintMode st mode)) ≤ areaCount st + 1) ∧
    (mode = PaintMode.unit →
      unitCount (drag.foldl (fun s p => MainScene.paintUnit s p.1 p.2)
        (MainScene.setPaintMode st mode)) ≤ unitCount st + 1) := by
  refine ⟨?_, ?_, ?_, ?_, ?_, ?_⟩
  · cases mode <;> simp [MainScene.setPaintMode]
  · cases mode <;> simp [MainScene.setPaintMode]
  · cases mode <;> simp [MainScene.setPaintMode]
  · intro hm
    have h := foldl_paintMunicipality_measure drag (MainScene.setPaintMode st mode)
    have h1 : munCount (MainScene.setPaintMode st mode) = munCount st := rfl
    have h2 : munFlag (MainScene.setPaintMode st mode) ≤ 1 := by
      unfold munFlag
      split <;> omega
    omega
  · intro hm
    have h := foldl_paintArea_measure drag (MainScene.setPaintMode st mode)
    have h1 : areaCount (MainScene.setPaintMode st mode) = areaCount st := rfl
    have h2 : areaFlag (MainScene.setPaintMode st mode) ≤ 1 := by
      unfold areaFlag
      split <;> omega
    omega
  · intro hm
    have h := foldl_paintUnit_measure drag (MainScene.setPaintMode st mode)
    have h1 : unitCount (MainScene.setPaintMode st mode) = unitCount st := rfl
    have h2 : unitFlag (MainScene.setPaintMode st mode) ≤ 1 := by
      unfold unitFlag
      split <;> omega
    omega

/-- Witness for the amended C8: after switching to area mode from the
C8 state and dragging over one tile, at most one new area exists. -/
theorem C8_setPaintMode_amended_witness :
    areaCount ([((1 : ℤ), (0 : ℤ))].foldl (fun s p => MainScene.paintArea s p.1 p.2)
      (MainScene.setPaintMode C8state PaintMode.area)) ≤ areaCount C8state + 1 :=
  (C8_setPaintMode_amended C8state PaintMode.area [(1, 0)]).2.2.2.2.1 rfl

/-- Two grids with pointwise equal boundary ids (they may differ in
`hasSchool`). -/
def sameIds (g g2 : Grid) : Prop :=
  ∀ a b : ℤ, (g2 a b).municipalityId = (g a b).municipalityId ∧
    (g2 a b).areaId = (g a b).areaId ∧ (g2 a b).unitId = (g a b).unitId

theorem sameIds_refl (g : Grid) : sameIds g g := fun _ _ => ⟨rfl, rfl, rfl⟩

theorem sameIds_trans {g1 g2 g3 : Grid} (h1 : sameIds g1 g2) (h2 : sameIds g2 g3) :
    sameIds g1 g3 := by
  intro a b
  obtain ⟨m1, a1, u1⟩ := h1 a b
  obtain ⟨m2, a2, u2⟩ := h2 a b
  exact ⟨m2.trans m1, a2.trans a1, u2.trans u1⟩

theorem sameIds_setTileSchool (g : Grid) (x y : ℤ) (hs : Bool) :
    sameIds g (GridService.setTileSchool g x y hs).2 := by
  unfold GridService.setTileSchool
  split
  · intro a b
    unfold updateTile
    dsimp only
    split
    · exact ⟨rfl, rfl, rfl⟩
    · exact ⟨rfl, rfl, rfl⟩
  · exact sameIds_refl g

theorem sameIds_gridPlaceSchool (g : Grid) (x y : ℤ) :
    sameIds g (GridService.placeSchool g x y).2 := by
  unfold GridService.placeSchool
  split
  · exact sameIds_setTileSchool g x y true
  · exact sameIds_refl g

theorem sameIds_gridRemoveSchool (g : Grid) (x y : ℤ) :
    sameIds g (GridService.removeSchool g x y).2 := by
  unfold GridService.removeSchool
  split
  · exact sameIds_setTileSchool g x y false
  · exact sameIds_refl g

theorem sameIds_foldl {α : Type} (l : List α) (step : Grid → α → Grid)
    (hstep : ∀ g i, sameIds g (step g i)) (g : Grid) : sameIds g (l.foldl step g) := by
  induction l generalizing g with
  | nil => exact sameIds_refl g
  | cons i rest ih =>
    exact sameIds_trans (hstep g i) (ih (step g i))

theorem sameIds_markFootprint (g : Grid) (x y : ℤ) (w h : ℕ) :
    sameIds g (SchoolService.markFootprint g x y w h) := by
  unfold SchoolService.markFootprint
  apply sameIds_foldl
  intro g1 dx
  apply sameIds_foldl
  intro g2 dy
  exact sameIds_gridPlaceSchool g2 (x + dx) (y + dy)

theorem sameIds_unmarkFootprint (g : Grid) (x y : ℤ) (w h : ℕ) :
    sameIds g (SchoolService.unmarkFootprint g x y w h) := by
  unfold SchoolService.unmarkFootprint
  apply sameIds_foldl
  intro g1 dx
  apply sameIds_foldl
  intro g2 dy
  exact sameIds_gridRemoveSchool g2 (x + dx) (y + dy)

theorem sameIds_placeSchool (g : Grid) (ss : SchoolState) (x y : ℤ)
    (t : Option SchoolType) (name : Option String) :
    sameIds g (SchoolService.placeSchool g ss x y t name).2.1 := by
  unfold SchoolService.placeSchool
  dsimp only
  split
  · exact sameIds_markFootprint g x y _ _
  · exact sameIds_refl g

theorem sameIds_placeSchoolAuto (g : Grid) (ss : SchoolState) (x y : ℤ)
    (name : Option String) :
    sameIds g (SchoolService.placeSchoolAuto g ss x y name).2.1 := by
  unfold SchoolService.placeSchoolAuto
  split
  · exact sameIds_placeSchool g ss _ _ _ _
  · split
    · exact sameIds_placeSchool g ss _ _ _ _
    · split
      · exact sameIds_placeSchool g ss _ _ _ _
      · exact sameIds_refl g

theorem sameIds_removeSchool (g : Grid) (ss : SchoolState) (x y : ℤ) :
    sameIds g (SchoolService.removeSchool g ss x y).2.1 := by
  unfold SchoolService.removeSchool
  split
  · exact sameIds_unmarkFootprint g _ _ _ _
  · exact sameIds_refl g

theorem gridNestOK_of_sameIds {g g2 : Grid} (hs : sameIds g g2) (h : gridNestOK g) :
    gridNestOK g2 := by
  intro a b
  obtain ⟨hm, ha, hu⟩ := hs a b
  obtain ⟨h1, h2⟩ := h a b
  rw [tileNestOK, hm, ha, hu]
  exact ⟨h1, h2⟩

theorem gridNestOK_updateTile (g : Grid) (x y : ℤ) (f : Tile → Tile)
    (hg : gridNestOK g) (hf : tileNestOK (f (g x y))) :
    gridNestOK (updateTile g x y f) := by
  intro a b
  unfold updateTile
  split
  · rename_i hab
    rcases hab with ⟨rfl, rfl⟩
    exact hf
  · exact hg a b

theorem gridNestOK_paintMunicipality (st : GameState) (x y : ℤ)
    (h : gridNestOK st.grid) : gridNestOK (MainScene.paintMunicipality st x y).grid := by
  unfold MainScene.paintMunicipality
  dsimp only
  split
  · split
    · exact gridNestOK_updateTile _ _ _ _ h ⟨fun hc => absurd rfl hc, fun hc => absurd rfl hc⟩
    · exact gridNestOK_updateTile _ _ _ _ h ⟨fun hc => absurd rfl hc, fun hc => absurd rfl hc⟩
  · exact h

theorem gridNestOK_paintArea (st : GameState) (x y : ℤ)
    (h : gridNestOK st.grid) : gridNestOK (MainScene.paintArea st x y).grid := by
  unfold MainScene.paintArea
  dsimp only
  split
  · rename_i hguard
    have hmun : (st.grid x y).municipalityId ≠ "" := by
      simp only [Bool.and_eq_true, bne_iff_ne] at hguard
      exact hguard.1
    repeat' split
    all_goals
      first
      | exact h
      | exact gridNestOK_updateTile _ _ _ _ h ⟨fun hc => absurd rfl hc, fun _ => hmun⟩
  · exact h

theorem gridNestOK_paintUnit (st : GameState) (x y : ℤ)
    (h : gridNestOK st.grid) : gridNestOK (MainScene.paintUnit st x y).grid := by
  unfold MainScene.paintUnit
  dsimp only
  split
  · rename_i hguard
    have harea : (st.grid x y).areaId ≠ "" := by
      simp only [Bool.and_eq_true, bne_iff_ne] at hguard
      exact hguard.1
    repeat' split
    all_goals
      first
      | exact h
      | exact gridNestOK_updateTile _ _ _ _ h ⟨fun _ => harea, (h x y).2⟩
  · exact h

theorem gridNestOK_paintSchool (st : GameState) (x y : ℤ)
    (h : gridNestOK st.grid) : gridNestOK (MainScene.paintSchool st x y).grid := by
  unfold MainScene.paintSchool
  dsimp only
  split
  · exact gridNestOK_of_sameIds (sameIds_placeSchoolAuto st.grid st.schoolState x y none) h
  · exact h

theorem cleanup_grid_eq (st : GameState) (m a u : String) :
    (MainScene.cleanupOrphanedStructures st m a u).grid = st.grid := by
  unfold MainScene.cleanupOrphanedStructures
  dsimp only
  repeat' split
  all_goals rfl

theorem gridNestOK_clearTile (st : GameState) (x y : ℤ)
    (h : gridNestOK st.grid) : gridNestOK (MainScene.clearTile st x y).grid := by
  unfold MainScene.clearTile
  dsimp only
  rw [cleanup_grid_eq]
  split
  · exact gridNestOK_updateTile _ _ _ _
      (gridNestOK_of_sameIds (sameIds_removeSchool st.grid st.schoolState x y) h)
      ⟨fun hc => absurd rfl hc, fun hc => absurd rfl hc⟩
  · exact gridNestOK_updateTile _ _ _ _ h
      ⟨fun hc => absurd rfl hc, fun hc => absurd rfl hc⟩

theorem gridNestOK_applyPaintOp (st : GameState) (op : PaintOp)
    (h : gridNestOK st.grid) : gridNestOK (applyPaintOp st op).grid := by
  cases op with
  | mun x y => exact gridNestOK_paintMunicipality st x y h
  | area x y => exact gridNestOK_paintArea st x y h
  | unit x y => exact gridNestOK_paintUnit st x y h
  | school x y => exact gridNestOK_paintSchool st x y h
  | clear x y => exact gridNestOK_clearTile st x y h

/-- **C2.** After any sequence of paint-mode operations
(`paintMunicipality`, `paintArea`, `paintUnit`, `paintSchool`,
`clearTile`) starting from the empty grid, every grid tile satisfies
the strict-nesting invariant: a non-empty `unitId` implies a non-empty
`areaId`, which implies a non-empty `municipalityId`. -/
theorem C2_strict_nesting_invariant (ops : List PaintOp) (x y : ℤ)
    (hxy : GridService.isValidPosition x y = true) :
    tileNestOK ((ops.foldl applyPaintOp initialState).grid x y) := by
  have main : ∀ (l : List PaintOp) (st : GameState), gridNestOK st.grid →
      gridNestOK ((l.foldl applyPaintOp st).grid) := by
    intro l
    induction l with
    | nil => exact fun st h => h
    | cons op rest ih =>
      intro st h
      exact ih (applyPaintOp st op) (gridNestOK_applyPaintOp st op h)
  have hinit : gridNestOK initialState.grid := by
    intro a b
    exact ⟨fun hc => absurd rfl hc, fun hc => absurd rfl hc⟩
  exact main ops initialState hinit x y

/-- Witness for C2: painting municipality, area and unit at `(0, 0)`
and then clearing `(3, 3)` keeps the nesting invariant at `(0, 0)`. -/
theorem C2_strict_nesting_invariant_witness :
    GridService.isValidPosition 0 0 = true ∧
    tileNestOK (([PaintOp.mun 0 0, PaintOp.area 0 0, PaintOp.unit 0 0,
      PaintOp.clear 3 3].foldl applyPaintOp initialState).grid 0 0) :=
  ⟨by decide,
   C2_strict_nesting_invariant [PaintOp.mun 0 0, PaintOp.area 0 0, PaintOp.unit 0 0,
     PaintOp.clear 3 3] 0 0 (by decide)⟩

theorem find?_congrOn {α : Type} {p q : α → Bool} :
    ∀ {l : List α}, (∀ x ∈ l, p x = q x) → l.find? p = l.find? q
  | [], _ => rfl
  | a :: l, h => by
    rcases hq : q a with _ | _
    · rw [List.find?_cons_of_neg, List.find?_cons_of_neg]
      · exact find?_congrOn fun x hx => h x (List.mem_cons_of_mem a hx)
      · simp [hq]
      · simp [h a (List.mem_cons_self a l), hq]
    · rw [List.find?_cons_of_pos, List.find?_cons_of_pos]
      · exact hq
      · rw [h a (List.mem_cons_self a l)]
        exact hq

theorem find_cons_pos {α : Type} (p : α → Bool) (a : α) (l : List α) (h : p a = true) :
    (a :: l).find? p = some a := by
  simp only [List.find?]
  rw [h]

theorem find_cons_neg {α : Type} (p : α → Bool) (a : α) (l : List α) (h : p a = false) :
    (a :: l).find? p = l.find? p := by
  simp only [List.find?]
  rw [h]

theorem pickLoop_eq_find_min {α : Type} (f : α → ℚ) :
    ∀ (l : List α) (a : α),
      (a :: l).find? (fun x => decide (∀ b ∈ a :: l, f x ≤ f b)) =
        some (SchoolService.pickLoop f l a (f a))
  | [], a => by
    rw [find_cons_pos (fun x => decide (∀ b ∈ [a], f x ≤ f b)) a [] (by simp)]
    rfl
  | c :: t, a => by
    by_cases hca : f c < f a
    · have e1 : SchoolService.pickLoop f (c :: t) a (f a) =
          SchoolService.pickLoop f t c (f c) := by
        simp only [SchoolService.pickLoop]
        rw [if_pos hca]
      have hafail : decide (∀ b ∈ a :: c :: t, f a ≤ f b) = false := by
        simp only [decide_eq_false_iff_not, not_forall]
        exact ⟨c, List.mem_cons_of_mem a (List.mem_cons_self c t), not_le.mpr hca⟩
      rw [e1, ← pickLoop_eq_find_min f t c,
        find_cons_neg (fun x => decide (∀ b ∈ a :: c :: t, f x ≤ f b)) a (c :: t) hafail]
      apply find?_congrOn
      intro x hx
      apply decide_eq_decide.mpr
      constructor
      · intro hall b hb
        exact hall b (List.mem_cons_of_mem a hb)
      · intro hall b hb
        rcases List.mem_cons.mp hb with rfl | hb2
        · exact le_trans (hall c (List.mem_cons_self c t)) (le_of_lt hca)
        · exact hall b hb2
    · have hac : f a ≤ f c := not_lt.mp hca
      have e1 : SchoolService.pickLoop f (c :: t) a (f a) =
          SchoolService.pickLoop f t a (f a) := by
        simp only [SchoolService.pickLoop]
        rw [if_neg hca]
      rw [e1, ← pickLoop_eq_find_min f t a]
      by_cases hA : ∀ b ∈ a :: t, f a ≤ f b
      · have hA2 : ∀ b ∈ a :: c :: t, f a ≤ f b := by
          intro b hb
          rcases List.mem_cons.mp hb with rfl | hb2
          · exact le_refl _
          · rcases List.mem_cons.mp hb2 with rfl | hb3
            · exact hac
            · exact hA b (List.mem_cons_of_mem a hb3)
        rw [find_cons_pos (fun x => decide (∀ b ∈ a :: c :: t, f x ≤ f b)) a (c :: t)
            (decide_eq_true hA2),
          find_cons_pos (fun x => decide (∀ b ∈ a :: t, f x ≤ f b)) a t (decide_eq_true hA)]
      · obtain ⟨b0, hb0mem, hb0⟩ : ∃ b ∈ a :: t, ¬ f a ≤ f b := by
          simpa only [not_forall, exists_prop] using hA
        have hb0t : b0 ∈ t := by
          rcases List.mem_cons.mp hb0mem with rfl | h2
          · exact absurd (le_refl (f b0)) hb0
          · exact h2
        have hfail1 : decide (∀ b ∈ a :: c :: t, f a ≤ f b) = false := by
          simp only [decide_eq_false_iff_not, not_forall]
          exact ⟨b0, List.mem_cons_of_mem a (List.mem_cons_of_mem c hb0t), hb0⟩
        have hfail2 : decide (∀ b ∈ a :: c :: t, f c ≤ f b) = false := by
          simp only [decide_eq_false_iff_not, not_forall]
          refine ⟨b0, List.mem_cons_of_mem a (List.mem_cons_of_mem c hb0t), ?_⟩
          intro hcb
          exact hb0 (le_trans hac hcb)
        have hfail3 : decide (∀ b ∈ a :: t, f a ≤ f b) = false := by
          simp only [decide_eq_false_iff_not]
          exact hA
        rw [find_cons_neg (fun x => decide (∀ b ∈ a :: c :: t, f x ≤ f b)) a (c :: t) hfail1,
          find_cons_neg (fun x => decide (∀ b ∈ a :: c :: t, f x ≤ f b)) c t hfail2,
          find_cons_neg (fun x => decide (∀ b ∈ a :: t, f x ≤ f b)) a t hfail3]
        apply find?_congrOn
        intro x hx
        apply decide_eq_decide.mpr
        constructor
        · intro hall b hb
          rcases List.mem_cons.mp hb with rfl | hb2
          · exact hall b (List.mem_cons_self b _)
          · exact hall b (List.mem_cons_of_mem a (List.mem_cons_of_mem c hb2))
        · intro hall b hb
          rcases List.mem_cons.mp hb with rfl | hb2
          · exact hall b (List.mem_cons_self b _)
          · rcases List.mem_cons.mp hb2 with rfl | hb3
            · exact le_trans (hall a (List.mem_cons_self a t)) hac
            · exact hall b (List.mem_cons_of_mem a hb3)

theorem filterMap_if_eq {α β : Type} (l : List α) (f : α → β) (p : β → Bool) :
    l.filterMap (fun x => if p (f x) then some (f x) else none) = (l.map f).filter p := by
  induction l with
  | nil => rfl
  | cons a rest ih =>
    simp only [List.filterMap_cons, List.map_cons, List.filter_cons]
    by_cases hp : p (f a) = true
    · rw [if_pos hp, if_pos hp, ih]
    · rw [if_neg hp, if_neg hp, ih]

theorem filter_flatMap {α β : Type} (l : List α) (g : α → List β) (p : β → Bool) :
    (l.flatMap g).filter p = l.flatMap (fun x => (g x).filter p) := by
  induction l with
  | nil => rfl
  | cons a rest ih =>
    simp only [List.flatMap_cons, List.filter_append, ih]

theorem filterMap_congrOn {α β : Type} {f g : α → Option β} :
    ∀ {l : List α}, (∀ x ∈ l, f x = g x) → l.filterMap f = l.filterMap g
  | [], _ => rfl
  | a :: l, h => by
    simp only [List.filterMap_cons, h a (List.mem_cons_self a l)]
    rw [filterMap_congrOn fun x hx => h x (List.mem_cons_of_mem a hx)]

theorem hasSchool_of_valid (g : Grid) (x y : ℤ)
    (hv : GridService.isValidPosition x y = true) :
    GridService.hasSchool g x y = (g x y).hasSchool := by
  unfold GridService.hasSchool GridService.getTile
  rw [if_pos hv]

theorem canPlaceSameUnit_iff_accepted (g : Grid) (cx cy px py : ℤ) (w h : ℕ)
    (hreq : (g cx cy).unitId ≠ "") :
    SchoolService.canPlaceSchoolInSameUnit g px py w h ((g cx cy).unitId) = true ↔
      PlacementSpec.accepted g cx cy w h (px, py) := by
  unfold SchoolService.canPlaceSchoolInSameUnit PlacementSpec.accepted
  simp only [List.all_eq_true, Bool.and_eq_true, Bool.not_eq_true']
  constructor
  · intro hc dx hdx dy hdy
    obtain ⟨⟨hv, hns⟩, hu⟩ := hc dx hdx dy hdy
    rw [hasSchool_of_valid g _ _ hv] at hns
    rw [GridService.getTile, if_pos hv] at hu
    simp only [Bool.and_eq_true, beq_iff_eq, bne_iff_ne] at hu
    exact ⟨hv, hns, hu.1, hreq⟩
  · intro hs dx hdx dy hdy
    obtain ⟨hv, hns, hequ, -⟩ := hs dx hdx dy hdy
    refine ⟨⟨hv, ?_⟩, ?_⟩
    · rw [hasSchool_of_valid g _ _ hv]
      exact hns
    · rw [GridService.getTile, if_pos hv]
      simp only [Bool.and_eq_true, beq_iff_eq, bne_iff_ne]
      refine ⟨hequ, ?_⟩
      rw [hequ]
      exact hreq

theorem getTile_some {g : Grid} {x y : ℤ} {t : Tile}
    (h : GridService.getTile g x y = some t) :
    GridService.isValidPosition x y = true ∧ t = g x y := by
  rw [GridService.getTile] at h
  by_cases hv : GridService.isValidPosition x y = true
  · rw [if_pos hv] at h
    exact ⟨hv, (Option.some.inj h).symm⟩
  · rw [if_neg hv] at h
    cases h

theorem candidate_not_accepted_of_invalid_click (g : Grid) (cx cy : ℤ) (w h : ℕ)
    (hbad : GridService.getTile g cx cy = none) (p : ℤ × ℤ)
    (hp : p ∈ PlacementSpec.candidates cx cy w h) :
    ¬ PlacementSpec.accepted g cx cy w h p := by
  simp only [PlacementSpec.candidates, List.mem_flatMap, List.mem_map, List.mem_range] at hp
  obtain ⟨dx, hdx, dy, hdy, rfl⟩ := hp
  intro hacc
  have hcell := hacc dx (List.mem_range.mpr hdx) dy (List.mem_range.mpr hdy)
  have hv : GridService.isValidPosition cx cy = true := by
    have h1 := hcell.1
    simpa [sub_add_cancel] using h1
  rw [GridService.getTile, if_pos hv] at hbad
  cases hbad

theorem candidate_not_accepted_of_empty_unit (g : Grid) (cx cy : ℤ) (w h : ℕ)
    (hueq : (g cx cy).unitId = "") (p : ℤ × ℤ)
    (hp : p ∈ PlacementSpec.candidates cx cy w h) :
    ¬ PlacementSpec.accepted g cx cy w h p := by
  simp only [PlacementSpec.candidates, List.mem_flatMap, List.mem_map, List.mem_range] at hp
  obtain ⟨dx, hdx, dy, hdy, rfl⟩ := hp
  intro hacc
  have hcell := hacc dx (List.mem_range.mpr hdx) dy (List.mem_range.mpr hdy)
  exact hcell.2.2.2 hueq

theorem findBest_eq_bestPosition (g : Grid) (cx cy : ℤ) (w h : ℕ) :
    SchoolService.findBestSchoolPosition g cx cy w h =
      PlacementSpec.bestPosition g cx cy w h := by
  unfold SchoolService.findBestSchoolPosition
  cases hclick : GridService.getTile g cx cy with
  | none =>
    have hempty : PlacementSpec.acceptedList g cx cy w h = [] := by
      rw [PlacementSpec.acceptedList, List.filter_eq_nil_iff]
      intro p hp
      simp only [decide_eq_true_eq]
      exact candidate_not_accepted_of_invalid_click g cx cy w h hclick p hp
    rw [PlacementSpec.bestPosition, hempty]
    rfl
  | some clickedTile =>
    obtain ⟨hv, rfl⟩ := getTile_some hclick
    dsimp only
    by_cases hu : ((g cx cy).unitId == "") = true
    · rw [if_pos hu]
      have hueq : (g cx cy).unitId = "" := by simpa using hu
      have hempty : PlacementSpec.acceptedList g cx cy w h = [] := by
        rw [PlacementSpec.acceptedList, List.filter_eq_nil_iff]
        intro p hp
        simp only [decide_eq_true_eq]
        exact candidate_not_accepted_of_empty_unit g cx cy w h hueq p hp
      rw [PlacementSpec.bestPosition, hempty]
      rfl
    · rw [if_neg hu]
      have hreq : (g cx cy).unitId ≠ "" := by simpa using hu
      have hcond : ∀ dx dy : ℕ,
          SchoolService.canPlaceSchoolInSameUnit g (cx - dx) (cy - dy) w h
            ((g cx cy).unitId)
          = decide (PlacementSpec.accepted g cx cy w h (cx - dx, cy - dy)) := by
        intro dx dy
        by_cases hacc : PlacementSpec.accepted g cx cy w h (cx - dx, cy - dy)
        · rw [decide_eq_true hacc]
          exact (canPlaceSameUnit_iff_accepted g cx cy (cx - dx) (cy - dy) w h hreq).mpr hacc
        · rw [decide_eq_false hacc]
          rcases hcp : SchoolService.canPlaceSchoolInSameUnit g (cx - dx) (cy - dy) w h
              ((g cx cy).unitId) with _ | _
          · rfl
          · exact absurd
              ((canPlaceSameUnit_iff_accepted g cx cy (cx - dx) (cy - dy) w h hreq).mp hcp)
              hacc
      have hlist : ((List.range w).flatMap fun (dx : ℕ) =>
            (List.range h).filterMap fun (dy : ℕ) =>
              if SchoolService.canPlaceSchoolInSameUnit g (cx - dx) (cy - dy) w h
                  ((g cx cy).unitId) then
                some (cx - (dx : ℤ), cy - (dy : ℤ))
              else none)
          = PlacementSpec.acceptedList g cx cy w h := by
        unfold PlacementSpec.acceptedList PlacementSpec.candidates
        rw [filter_flatMap]
        congr 1
        funext dx
        rw [← filterMap_if_eq (List.range h) (fun dy : ℕ => (cx - (dx : ℤ), cy - (dy : ℤ)))]
        apply filterMap_congrOn
        intro dy hdy
        simp only [hcond dx dy]
      rw [hlist]
      cases hal : PlacementSpec.acceptedList g cx cy w h with
      | nil =>
        rw [PlacementSpec.bestPosition, hal]
        rfl
      | cons p rest =>
        rw [PlacementSpec.bestPosition, hal]
        exact (pickLoop_eq_find_min
          (fun q : ℤ × ℤ => SchoolService.distanceToCenter w h cx cy q.1 q.2) rest p).symm

theorem bestPosition_some_accepted {g : Grid} {cx cy : ℤ} {w h : ℕ} {p : ℤ × ℤ}
    (hbp : PlacementSpec.bestPosition g cx cy w h = some p) :
    PlacementSpec.accepted g cx cy w h p := by
  rw [PlacementSpec.bestPosition] at hbp
  have hmem := List.mem_of_find?_eq_some hbp
  rw [PlacementSpec.acceptedList] at hmem
  have := List.of_mem_filter hmem
  simpa using this

theorem accepted_canPlaceSchool {g : Grid} {cx cy : ℤ} {w h : ℕ} {p : ℤ × ℤ}
    (hacc : PlacementSpec.accepted g cx cy w h p) :
    SchoolService.canPlaceSchool g p.1 p.2 w h = true := by
  unfold SchoolService.canPlaceSchool
  simp only [List.all_eq_true, Bool.and_eq_true, Bool.not_eq_true']
  intro dx hdx dy hdy
  obtain ⟨hv, hns, hequ, hne⟩ := hacc dx hdx dy hdy
  refine ⟨⟨hv, ?_⟩, ?_⟩
  · rw [hasSchool_of_valid g _ _ hv]
    exact hns
  · rw [GridService.getTile, if_pos hv]
    simp only [bne_iff_ne]
    rw [hequ]
    exact hne

theorem placeSchool_fst_of_canPlace (g : Grid) (ss : SchoolState) (x y : ℤ)
    (t : SchoolType) (name : Option String)
    (hcan : SchoolService.canPlaceSchool g x y t.sizeWidth t.sizeHeight = true) :
    ((SchoolService.placeSchool g ss x y (some t) name).1).map
      (fun s => (s.type, s.posX, s.posY)) = some (t, x, y) := by
  unfold SchoolService.placeSchool
  dsimp only
  simp only [Option.getD_some]
  rw [if_pos hcan]
  rfl

/-- **C4.** `placeSchoolAuto` realises exactly the claim's search: sizes
HIGH 4×3, MIDDLE 3×3, ELEMENTARY 2×2 in that order; for each size the
candidate top-left corners are those putting the clicked tile inside
the footprint; a candidate is accepted iff every covered tile is in
bounds, school-free and in the clicked tile's non-empty unit; the first
size with accepted candidates wins, the position chosen being the first
one minimising the Manhattan distance from the clicked tile to the
footprint centre; `null` when no size fits.  Stated as: the school the
embedding places (its type and top-left corner) equals the claim-side
`PlacementSpec.autoChoice`. -/
theorem C4_placeSchoolAuto_follows_spec (g : Grid) (ss : SchoolState) (x y : ℤ)
    (name : Option String) :
    ((SchoolService.placeSchoolAuto g ss x y name).1).map
      (fun s => (s.type, s.posX, s.posY)) = PlacementSpec.autoChoice g x y := by
  unfold SchoolService.placeSchoolAuto PlacementSpec.autoChoice
  rw [findBest_eq_bestPosition, findBest_eq_bestPosition, findBest_eq_bestPosition]
  simp only [List.findSome?_cons]
  cases hH : PlacementSpec.bestPosition g x y
      SchoolType.HIGH.sizeWidth SchoolType.HIGH.sizeHeight with
  | some p =>
    simp only [Option.map_some]
    exact placeSchool_fst_of_canPlace g ss p.1 p.2 SchoolType.HIGH name
      (accepted_canPlaceSchool (bestPosition_some_accepted hH))
  | none =>
    simp only [Option.map_none]
    cases hM : PlacementSpec.bestPosition g x y
        SchoolType.MIDDLE.sizeWidth SchoolType.MIDDLE.sizeHeight with
    | some p =>
      simp only [Option.map_some]
      exact placeSchool_fst_of_canPlace g ss p.1 p.2 SchoolType.MIDDLE name
        (accepted_canPlaceSchool (bestPosition_some_accepted hM))
    | none =>
      simp only [Option.map_none]
      cases hE : PlacementSpec.bestPosition g x y
          SchoolType.ELEMENTARY.sizeWidth SchoolType.ELEMENTARY.sizeHeight with
      | some p =>
        simp only [Option.map_some]
        exact placeSchool_fst_of_canPlace g ss p.1 p.2 SchoolType.ELEMENTARY name
          (accepted_canPlaceSchool (bestPosition_some_accepted hE))
      | none =>
        simp only [Option.map_none]
        rfl

theorem truthy_of_prop_isString {d : JsVal} {k : String}
    (h : (d.prop k).isString = true) : d.truthy = true := by
  cases d <;> simp [JsVal.prop, JsVal.isString, JsVal.truthy] at h ⊢

theorem truthy_of_prop_isNumber {d : JsVal} {k : String}
    (h : ((d.prop k).prop "gridSize").isNumber = true) : (d.prop k).truthy = true := by
  rcases hm : d.prop k with _ | _ | b | n | s | l | fs <;>
    rw [hm] at h <;> simp [JsVal.prop, JsVal.isNumber, JsVal.truthy] at h ⊢

/-- **C7.** `loadGameData` accepts saved data exactly when version and
timestamp are strings, grid, municipalities and schools are arrays, and
`metadata.gridSize` is a number; on any data failing this validation it
returns `false` and leaves the prior in-memory game state unchanged,
and on data passing it, it restores that state (applies the restore
step to it) and returns `true`. -/
theorem C7_loadGameData_validation (restore : JsVal → GameState → GameState)
    (data : JsVal) (st : GameState) :
    (GameDataService.validateSaveData data = true ↔
      GameDataService.claimedSaveDataOK data) ∧
    (¬ GameDataService.claimedSaveDataOK data →
      GameDataService.loadGameData restore data st = (false, st)) ∧
    (GameDataService.claimedSaveDataOK data →
      GameDataService.loadGameData restore data st = (true, restore data st)) := by
  have hiff : GameDataService.validateSaveData data = true ↔
      GameDataService.claimedSaveDataOK data := by
    unfold GameDataService.validateSaveData GameDataService.claimedSaveDataOK
    simp only [Bool.and_eq_true]
    constructor
    · rintro ⟨⟨⟨⟨⟨⟨⟨-, h1⟩, h2⟩, h3⟩, h4⟩, h5⟩, -⟩, h6⟩
      exact ⟨h1, h2, h3, h4, h5, h6⟩
    · rintro ⟨h1, h2, h3, h4, h5, h6⟩
      exact ⟨⟨⟨⟨⟨⟨⟨truthy_of_prop_isString h1, h1⟩, h2⟩, h3⟩, h4⟩, h5⟩,
        truthy_of_prop_isNumber h6⟩, h6⟩
  refine ⟨hiff, ?_, ?_⟩
  · intro hbad
    unfold GameDataService.loadGameData
    rw [if_neg]
    intro hv
    exact hbad (hiff.mp hv)
  · intro hok
    unfold GameDataService.loadGameData
    rw [if_pos (hiff.mpr hok)]

/-- Witness for C7: a number is rejected leaving the state unchanged; a
well-formed save object is accepted and restored. -/
theorem C7_loadGameData_validation_witness :
    (¬ GameDataService.claimedSaveDataOK (JsVal.num 0)) ∧
    GameDataService.loadGameData (fun _ _ => initialState) (JsVal.num 0) C8state
      = (false, C8state) ∧
    GameDataService.claimedSaveDataOK sampleSaveData ∧
    GameDataService.loadGameData (fun _ _ => initialState) sampleSaveData C8state
      = (true, initialState) :=
  ⟨by decide,
   (C7_loadGameData_validation (fun _ _ => initialState) (JsVal.num 0) C8state).2.1
     (by decide),
   by decide,
   (C7_loadGameData_validation (fun _ _ => initialState) sampleSaveData C8state).2.2
     (by decide)⟩

theorem munIds_removeMunicipality (l : List MunicipalityDef) (id : String) :
    munIds (MunicipalityManager.removeMunicipality l id).2 = (munIds l).erase id := by
  induction l with
  | nil => rfl
  | cons m rest ih =>
    unfold MunicipalityManager.removeMunicipality
    by_cases hm : (m.id == id) = true
    · simp only [hm, if_true, ite_true]
      simp [munIds, List.erase_cons, hm]
    · simp only [hm, if_false, Bool.false_eq_true, ite_false]
      rcases hrec : MunicipalityManager.removeMunicipality rest id with ⟨b, rest2⟩
      rw [hrec] at ih
      simp [munIds, List.erase_cons, hm] at ih ⊢
      exact ih

theorem removeAreaFromList_found (l : List AreaDef) (id : String) :
    (MunicipalityManager.removeAreaFromList l id).1 = true ↔ id ∈ areaIdsOf l := by
  induction l with
  | nil => simp [MunicipalityManager.removeAreaFromList, areaIdsOf]
  | cons a rest ih =>
    unfold MunicipalityManager.removeAreaFromList
    by_cases ha : (a.id == id) = true
    · simp only [ha, if_true, ite_true]
      simp [areaIdsOf, beq_iff_eq.mp ha]
    · simp only [ha, if_false, Bool.false_eq_true, ite_false]
      rcases hrec : MunicipalityManager.removeAreaFromList rest id with ⟨b, rest2⟩
      rw [hrec] at ih
      simp only [areaIdsOf, List.map_cons, List.mem_cons] at ih ⊢
      constructor
      · intro hb
        exact Or.inr (ih.mp hb)
      · intro hmem
        rcases hmem with heq | hmem2
        · exact absurd (beq_iff_eq.mpr heq.symm) (by simpa using ha)
        · exact ih.mpr hmem2

theorem areaIdsOf_removeAreaFromList (l : List AreaDef) (id : String) :
    areaIdsOf (MunicipalityManager.removeAreaFromList l id).2 = (areaIdsOf l).erase id := by
  induction l with
  | nil => rfl
  | cons a rest ih =>
    unfold MunicipalityManager.removeAreaFromList
    by_cases ha : (a.id == id) = true
    · simp only [ha, if_true, ite_true]
      simp [areaIdsOf, List.erase_cons, ha]
    · simp only [ha, if_false, Bool.false_eq_true, ite_false]
      rcases hrec : MunicipalityManager.removeAreaFromList rest id with ⟨b, rest2⟩
      rw [hrec] at ih
      simp [areaIdsOf, List.erase_cons, ha] at ih ⊢
      exact ih

theorem allAreaIds_cons (m : MunicipalityDef) (rest : List MunicipalityDef) :
    allAreaIds (m :: rest) = areaIdsOf m.areas ++ allAreaIds rest := by
  simp [allAreaIds, areaIdsOf, List.flatMap_cons]

theorem allAreaIds_removeArea (l : List MunicipalityDef) (id : String) :
    allAreaIds (MunicipalityManager.removeArea l id).2 = (allAreaIds l).erase id := by
  induction l with
  | nil => rfl
  | cons m rest ih =>
    unfold MunicipalityManager.removeArea
    rcases hfl : MunicipalityManager.removeAreaFromList m.areas id with ⟨found, as2⟩
    rcases found with _ | _
    · simp only [Bool.false_eq_true, ite_false]
      rcases hrec : MunicipalityManager.removeArea rest id with ⟨b, rest2⟩
      rw [hrec] at ih
      have hnotmem : id ∉ areaIdsOf m.areas := by
        intro hmem
        have := (removeAreaFromList_found m.areas id).mpr hmem
        rw [hfl] at this
        cases this
      rw [allAreaIds_cons, allAreaIds_cons, List.erase_append_right _ hnotmem, ih]
    · simp only [ite_true]
      have hmem : id ∈ areaIdsOf m.areas := by
        apply (removeAreaFromList_found m.areas id).mp
        rw [hfl]
      have has2 : areaIdsOf as2 = (areaIdsOf m.areas).erase id := by
        have := areaIdsOf_removeAreaFromList m.areas id
        rw [hfl] at this
        exact this
      rw [allAreaIds_cons, allAreaIds_cons, List.erase_append_left _ hmem]
      show areaIdsOf as2 ++ allAreaIds rest = _
      rw [has2]

theorem munIds_removeArea (l : List MunicipalityDef) (id : String) :
    munIds (MunicipalityManager.removeArea l id).2 = munIds l := by
  induction l with
  | nil => rfl
  | cons m rest ih =>
    unfold MunicipalityManager.removeArea
    rcases hfl : MunicipalityManager.removeAreaFromList m.areas id with ⟨found, as2⟩
    rcases found with _ | _
    · simp only [Bool.false_eq_true, ite_false]
      rcases hrec : MunicipalityManager.removeArea rest id with ⟨b, rest2⟩
      rw [hrec] at ih
      simp [munIds] at ih ⊢
      exact ih
    · simp only [ite_true]
      simp [munIds]

theorem munIds_removeUnit (l : List MunicipalityDef) (id : String) :
    munIds (MunicipalityManager.removeUnit l id).2 = munIds l := by
  induction l with
  | nil => rfl
  | cons m rest ih =>
    unfold MunicipalityManager.removeUnit
    rcases hfl : MunicipalityManager.removeUnitFromAreas m.areas id with ⟨found, as2⟩
    rcases found with _ | _
    · simp only [Bool.false_eq_true, ite_false]
      rcases hrec : MunicipalityManager.removeUnit rest id with ⟨b, rest2⟩
      rw [hrec] at ih
      simp [munIds] at ih ⊢
      exact ih
    · simp only [ite_true]
      simp [munIds]

theorem areaIdsOf_removeUnitFromAreas (l : List AreaDef) (id : String) :
    areaIdsOf (MunicipalityManager.removeUnitFromAreas l id).2 = areaIdsOf l := by
  induction l with
  | nil => rfl
  | cons a rest ih =>
    unfold MunicipalityManager.removeUnitFromAreas
    rcases hfl : MunicipalityManager.removeUnitFromList a.units id with ⟨found, us2⟩
    rcases found with _ | _
    · simp only [Bool.false_eq_true, ite_false]
      rcases hrec : MunicipalityManager.removeUnitFromAreas rest id with ⟨b, rest2⟩
      rw [hrec] at ih
      simp [areaIdsOf] at ih ⊢
      exact ih
    · simp only [ite_true]
      simp [areaIdsOf]

theorem allAreaIds_removeUnit (l : List MunicipalityDef) (id : String) :
    allAreaIds (MunicipalityManager.removeUnit l id).2 = allAreaIds l := by
  induction l with
  | nil => rfl
  | cons m rest ih =>
    unfold MunicipalityManager.removeUnit
    rcases hfl : MunicipalityManager.removeUnitFromAreas m.areas id with ⟨found, as2⟩
    rcases found with _ | _
    · simp only [Bool.false_eq_true, ite_false]
      rcases hrec : MunicipalityManager.removeUnit rest id with ⟨b, rest2⟩
      rw [hrec] at ih
      rw [allAreaIds_cons, allAreaIds_cons]
      show areaIdsOf m.areas ++ allAreaIds rest2 = _
      rw [ih]
    · simp only [ite_true]
      rw [allAreaIds_cons, allAreaIds_cons]
      show areaIdsOf as2 ++ allAreaIds rest = _
      have := areaIdsOf_removeUnitFromAreas m.areas id
      rw [hfl] at this
      rw [this]

theorem allAreaIds_removeMunicipality_sublist (l : List MunicipalityDef) (id : String) :
    List.Sublist (allAreaIds (MunicipalityManager.removeMunicipality l id).2)
      (allAreaIds l) := by
  induction l with
  | nil => exact List.Sublist.refl _
  | cons m rest ih =>
    unfold MunicipalityManager.removeMunicipality
    by_cases hm : (m.id == id) = true
    · simp only [hm, if_true, ite_true]
      rw [allAreaIds_cons]
      exact List.sublist_append_right _ _
    · simp only [hm, if_false, Bool.false_eq_true, ite_false]
      rcases hrec : MunicipalityManager.removeMunicipality rest id with ⟨b, rest2⟩
      rw [hrec] at ih
      dsimp only at ih
      dsimp only
      rw [allAreaIds_cons, allAreaIds_cons]
      exact ih.append_left _

theorem removeUnitFromList_found (l : List UnitDef) (id : String) :
    (MunicipalityManager.removeUnitFromList l id).1 = true ↔ id ∈ unitIdsOfUnits l := by
  induction l with
  | nil => simp [MunicipalityManager.removeUnitFromList, unitIdsOfUnits]
  | cons u rest ih =>
    unfold MunicipalityManager.removeUnitFromList
    by_cases hu : (u.id == id) = true
    · simp only [hu, if_true, ite_true]
      simp [unitIdsOfUnits, beq_iff_eq.mp hu]
    · simp only [hu, if_false, Bool.false_eq_true, ite_false]
      rcases hrec : MunicipalityManager.removeUnitFromList rest id with ⟨b, rest2⟩
      rw [hrec] at ih
      simp only [unitIdsOfUnits, List.map_cons, List.mem_cons] at ih ⊢
      constructor
      · intro hb
        exact Or.inr (ih.mp hb)
      · intro hmem
        rcases hmem with heq | hmem2
        · exact absurd (beq_iff_eq.mpr heq.symm) (by simpa using hu)
        · exact ih.mpr hmem2

theorem unitIdsOfUnits_removeUnitFromList (l : List UnitDef) (id : String) :
    unitIdsOfUnits (MunicipalityManager.removeUnitFromList l id).2
      = (unitIdsOfUnits l).erase id := by
  induction l with
  | nil => rfl
  | cons u rest ih =>
    unfold MunicipalityManager.removeUnitFromList
    by_cases hu : (u.id == id) = true
    · simp only [hu, if_true, ite_true]
      simp [unitIdsOfUnits, List.erase_cons, hu]
    · simp only [hu, if_false, Bool.false_eq_true, ite_false]
      rcases hrec : MunicipalityManager.removeUnitFromList rest id with ⟨b, rest2⟩
      rw [hrec] at ih
      simp [unitIdsOfUnits, List.erase_cons, hu] at ih ⊢
      exact ih

theorem unitIdsOfAreas_cons (a : AreaDef) (rest : List AreaDef) :
    unitIdsOfAreas (a :: rest) = unitIdsOfUnits a.units ++ unitIdsOfAreas rest := by
  simp [unitIdsOfAreas, unitIdsOfUnits, List.flatMap_cons]

theorem removeUnitFromAreas_found (l : List AreaDef) (id : String) :
    (MunicipalityManager.removeUnitFromAreas l id).1 = true ↔ id ∈ unitIdsOfAreas l := by
  induction l with
  | nil => simp [MunicipalityManager.removeUnitFromAreas, unitIdsOfAreas]
  | cons a rest ih =>
    unfold MunicipalityManager.removeUnitFromAreas
    rcases hfl : MunicipalityManager.removeUnitFromList a.units id with ⟨found, us2⟩
    rcases found with _ | _
    · simp only [Bool.false_eq_true, ite_false]
      rcases hrec : MunicipalityManager.removeUnitFromAreas rest id with ⟨b, rest2⟩
      rw [hrec] at ih
      have hnot : id ∉ unitIdsOfUnits a.units := by
        intro hmem
        have := (removeUnitFromList_found a.units id).mpr hmem
        rw [hfl] at this
        cases this
      rw [unitIdsOfAreas_cons]
      simp only [List.mem_append]
      constructor
      · intro hb
        exact Or.inr (ih.mp hb)
      · intro hmem
        rcases hmem with h1 | h2
        · exact absurd h1 hnot
        · exact ih.mpr h2
    · simp only [ite_true]
      have hmem : id ∈ unitIdsOfUnits a.units := by
        apply (removeUnitFromList_found a.units id).mp
        rw [hfl]
      rw [unitIdsOfAreas_cons]
      simp only [List.mem_append]
      exact ⟨fun _ => Or.inl hmem, fun _ => trivial⟩

theorem unitIdsOfAreas_removeUnitFromAreas (l : List AreaDef) (id : String) :
    unitIdsOfAreas (MunicipalityManager.removeUnitFromAreas l id).2
      = (unitIdsOfAreas l).erase id := by
  induction l with
  | nil => rfl
  | cons a rest ih =>
    unfold MunicipalityManager.removeUnitFromAreas
    rcases hfl : MunicipalityManager.removeUnitFromList a.units id with ⟨found, us2⟩
    rcases found with _ | _
    · simp only [Bool.false_eq_true, ite_false]
      rcases hrec : MunicipalityManager.removeUnitFromAreas rest id with ⟨b, rest2⟩
      rw [hrec] at ih
      have hnot : id ∉ unitIdsOfUnits a.units := by
        intro hmem
        have := (removeUnitFromList_found a.units id).mpr hmem
        rw [hfl] at this
        cases this
      rw [unitIdsOfAreas_cons, unitIdsOfAreas_cons, List.erase_append_right _ hnot]
      show unitIdsOfUnits a.units ++ unitIdsOfAreas rest2 = _
      rw [ih]
    · simp only [ite_true]
      have hmem : id ∈ unitIdsOfUnits a.units := by
        apply (removeUnitFromList_found a.units id).mp
        rw [hfl]
      have hus2 : unitIdsOfUnits us2 = (unitIdsOfUnits a.units).erase id := by
        have := unitIdsOfUnits_removeUnitFromList a.units id
        rw [hfl] at this
        exact this
      rw [unitIdsOfAreas_cons, unitIdsOfAreas_cons, List.erase_append_left _ hmem]
      show unitIdsOfUnits us2 ++ unitIdsOfAreas rest = _
      rw [hus2]

theorem allUnitIds_removeUnit (l : List MunicipalityDef) (id : String) :
    allUnitIds (MunicipalityManager.removeUnit l id).2 = (allUnitIds l).erase id := by
  induction l with
  | nil => rfl
  | cons m rest ih =>
    unfold MunicipalityManager.removeUnit
    rcases hfl : MunicipalityManager.removeUnitFromAreas m.areas id with ⟨found, as2⟩
    rcases found with _ | _
    · simp only [Bool.false_eq_true, ite_false]
      rcases hrec : MunicipalityManager.removeUnit rest id with ⟨b, rest2⟩
      rw [hrec] at ih
      have hnot : id ∉ unitIdsOfAreas m.areas := by
        intro hmem
        have := (removeUnitFromAreas_found m.areas id).mpr hmem
        rw [hfl] at this
        cases this
      rw [allUnitIds_cons, allUnitIds_cons, List.erase_append_right _ hnot]
      show unitIdsOfAreas m.areas ++ allUnitIds rest2 = _
      rw [ih]
    · simp only [ite_true]
      have hmem : id ∈ unitIdsOfAreas m.areas := by
        apply (removeUnitFromAreas_found m.areas id).mp
        rw [hfl]
      have has2 : unitIdsOfAreas as2 = (unitIdsOfAreas m.areas).erase id := by
        have := unitIdsOfAreas_removeUnitFromAreas m.areas id
        rw [hfl] at this
        exact this
      rw [allUnitIds_cons, allUnitIds_cons, List.erase_append_left _ hmem]
      show unitIdsOfAreas as2 ++ allUnitIds rest = _
      rw [has2]

theorem unitIdsOfAreas_removeAreaFromList_sublist (l : List AreaDef) (id : String) :
    List.Sublist (unitIdsOfAreas (MunicipalityManager.removeAreaFromList l id).2)
      (unitIdsOfAreas l) := by
  induction l with
  | nil => exact List.Sublist.refl _
  | cons a rest ih =>
    unfold MunicipalityManager.removeAreaFromList
    by_cases ha : (a.id == id) = true
    · simp only [ha, if_true, ite_true]
      rw [unitIdsOfAreas_cons]
      exact List.sublist_append_right _ _
    · simp only [ha, if_false, Bool.false_eq_true, ite_false]
      rcases hrec : MunicipalityManager.removeAreaFromList rest id with ⟨b, rest2⟩
      rw [hrec] at ih
      dsimp only at ih
      dsimp only
      rw [unitIdsOfAreas_cons, unitIdsOfAreas_cons]
      exact ih.append_left _

theorem allUnitIds_removeArea_sublist (l : List MunicipalityDef) (id : String) :
    List.Sublist (allUnitIds (MunicipalityManager.removeArea l id).2) (allUnitIds l) := by
  induction l with
  | nil => exact List.Sublist.refl _
  | cons m rest ih =>
    unfold MunicipalityManager.removeArea
    rcases hfl : MunicipalityManager.removeAreaFromList m.areas id with ⟨found, as2⟩
    rcases found with _ | _
    · simp only [Bool.false_eq_true, ite_false]
      rcases hrec : MunicipalityManager.removeArea rest id with ⟨b, rest2⟩
      rw [hrec] at ih
      dsimp only at ih
      dsimp only
      rw [allUnitIds_cons, allUnitIds_cons]
      exact ih.append_left _
    · simp only [ite_true]
      rw [allUnitIds_cons, allUnitIds_cons]
      have hsub : List.Sublist (unitIdsOfAreas as2) (unitIdsOfAreas m.areas) := by
        have := unitIdsOfAreas_removeAreaFromList_sublist m.areas id
        rw [hfl] at this
        exact this
      show List.Sublist (unitIdsOfAreas as2 ++ allUnitIds rest) _
      exact hsub.append (List.Sublist.refl _)

theorem allUnitIds_removeMunicipality_sublist (l : List MunicipalityDef) (id : String) :
    List.Sublist (allUnitIds (MunicipalityManager.removeMunicipality l id).2)
      (allUnitIds l) := by
  induction l with
  | nil => exact List.Sublist.refl _
  | cons m rest ih =>
    unfold MunicipalityManager.removeMunicipality
    by_cases hm : (m.id == id) = true
    · simp only [hm, if_true, ite_true]
      rw [allUnitIds_cons]
      exact List.sublist_append_right _ _
    · simp only [hm, if_false, Bool.false_eq_true, ite_false]
      rcases hrec : MunicipalityManager.removeMunicipality rest id with ⟨b, rest2⟩
      rw [hrec] at ih
      dsimp only at ih
      dsimp only
      rw [allUnitIds_cons, allUnitIds_cons]
      exact ih.append_left _

theorem allAreaIds_removeUnitSame (l : List MunicipalityDef) (id : String) :
    allAreaIds (MunicipalityManager.removeUnit l id).2 = allAreaIds l :=
  allAreaIds_removeUnit l id

theorem updateTile_same (g : Grid) (x y : ℤ) (f : Tile → Tile) :
    updateTile g x y f x y = f (g x y) := by
  simp [updateTile]

theorem updateTile_other (g : Grid) (x y : ℤ) (f : Tile → Tile) (a b : ℤ)
    (h : ¬(a = x ∧ b = y)) : updateTile g x y f a b = g a b := by
  simp [updateTile, h]

theorem stillUsed_iff (g : Grid) (f : Tile → String) (id : String) :
    MainScene.stillUsed g f id = true ↔ tileRefs g f id := by
  unfold MainScene.stillUsed tileRefs
  simp only [List.any_eq_true, List.mem_range]
  constructor
  · rintro ⟨x, hx, y, hy, hmatch⟩
    unfold MainScene.gridWidth at hx
    unfold MainScene.gridHeight at hy
    have hvalid : GridService.isValidPosition (x : ℤ) (y : ℤ) = true := by
      unfold GridService.isValidPosition GRID_SIZE
      simp only [Bool.and_eq_true, decide_eq_true_eq]
      refine ⟨⟨⟨?_, ?_⟩, ?_⟩, ?_⟩ <;> omega
    refine ⟨(x : ℤ), (y : ℤ), hvalid, ?_⟩
    unfold GridService.getTile at hmatch
    rw [if_pos hvalid] at hmatch
    exact beq_iff_eq.mp hmatch
  · rintro ⟨p, q, hval, heq⟩
    have hb : 0 ≤ p ∧ p < 10 ∧ 0 ≤ q ∧ q < 10 := by
      unfold GridService.isValidPosition GRID_SIZE at hval
      simp only [Bool.and_eq_true, decide_eq_true_eq] at hval
      exact ⟨hval.1.1.1, hval.1.2, hval.1.1.2, hval.2⟩
    refine ⟨p.toNat, ?_, q.toNat, ?_, ?_⟩
    · unfold MainScene.gridWidth
      omega
    · unfold MainScene.gridHeight
      omega
    · have hp : ((p.toNat : ℤ)) = p := Int.toNat_of_nonneg hb.1
      have hq : ((q.toNat : ℤ)) = q := Int.toNat_of_nonneg hb.2.2.1
      rw [hp, hq]
      unfold GridService.getTile
      rw [if_pos hval]
      exact beq_iff_eq.mpr heq

theorem allValidTiles_spec (g : Grid) (pr : Tile → Bool) :
    allValidTiles g pr = true ↔
      ∀ a b : ℤ, GridService.isValidPosition a b = true → pr (g a b) = true := by
  unfold allValidTiles
  simp only [List.all_eq_true, List.mem_range]
  constructor
  · intro h a b hval
    have hb : 0 ≤ a ∧ a < 10 ∧ 0 ≤ b ∧ b < 10 := by
      unfold GridService.isValidPosition GRID_SIZE at hval
      simp only [Bool.and_eq_true, decide_eq_true_eq] at hval
      exact ⟨hval.1.1.1, hval.1.2, hval.1.1.2, hval.2⟩
    have ha : ((a.toNat : ℤ)) = a := Int.toNat_of_nonneg hb.1
    have hbq : ((b.toNat : ℤ)) = b := Int.toNat_of_nonneg hb.2.2.1
    have := h a.toNat (by unfold MainScene.gridWidth; omega) b.toNat
      (by unfold MainScene.gridHeight; omega)
    rw [ha, hbq] at this
    exact this
  · intro h x hx y hy
    unfold MainScene.gridWidth at hx
    unfold MainScene.gridHeight at hy
    apply h
    unfold GridService.isValidPosition GRID_SIZE
    simp only [Bool.and_eq_true, decide_eq_true_eq]
    refine ⟨⟨⟨?_, ?_⟩, ?_⟩, ?_⟩ <;> omega

theorem cleanup_membership (st : GameState) (m a u : String)
    (hm0 : m ≠ "") (ha0 : a ≠ "") (hu0 : u ≠ "")
    (hnodupM : (munIds st.registry.municipalities).Nodup)
    (hnodupA : (allAreaIds st.registry.municipalities).Nodup)
    (hnodupU : (allUnitIds st.registry.municipalities).Nodup)
    (hMA : ∀ p q : ℤ, GridService.isValidPosition p q = true →
      (st.grid p q).areaId = a → (st.grid p q).municipalityId = m)
    (hAU : ∀ p q : ℤ, GridService.isValidPosition p q = true →
      (st.grid p q).unitId = u → (st.grid p q).areaId = a) :
    (m ∈ munIds (MainScene.cleanupOrphanedStructures st m a u).registry.municipalities ↔
       m ∈ munIds st.registry.municipalities ∧
         tileRefs st.grid (fun t => t.municipalityId) m) ∧
    (a ∈ allAreaIds (MainScene.cleanupOrphanedStructures st m a u).registry.municipalities ↔
       a ∈ allAreaIds st.registry.municipalities ∧
         tileRefs st.grid (fun t => t.areaId) a) ∧
    (u ∈ allUnitIds (MainScene.cleanupOrphanedStructures st m a u).registry.municipalities ↔
       u ∈ allUnitIds st.registry.municipalities ∧
         tileRefs st.grid (fun t => t.unitId) u) := by
  have hbm : (m != "") = true := by simp [hm0]
  have hba : (a != "") = true := by simp [ha0]
  have hbu : (u != "") = true := by simp [hu0]
  have hchainA : MainScene.stillUsed st.grid (fun t => t.areaId) a = true →
      MainScene.stillUsed st.grid (fun t => t.municipalityId) m = true := by
    intro h
    rcases (stillUsed_iff st.grid (fun t => t.areaId) a).mp h with ⟨p, q, hval, heq⟩
    exact (stillUsed_iff st.grid (fun t => t.municipalityId) m).mpr
      ⟨p, q, hval, hMA p q hval heq⟩
  have hchainU : MainScene.stillUsed st.grid (fun t => t.unitId) u = true →
      MainScene.stillUsed st.grid (fun t => t.areaId) a = true := by
    intro h
    rcases (stillUsed_iff st.grid (fun t => t.unitId) u).mp h with ⟨p, q, hval, heq⟩
    exact (stillUsed_iff st.grid (fun t => t.areaId) a).mpr
      ⟨p, q, hval, hAU p q hval heq⟩
  unfold MainScene.cleanupOrphanedStructures
  dsimp only
  cases hrefM : MainScene.stillUsed st.grid (fun t => t.municipalityId) m with
  | false =>
    have hrefA : MainScene.stillUsed st.grid (fun t => t.areaId) a = false := by
      cases hA : MainScene.stillUsed st.grid (fun t => t.areaId) a with
      | false => rfl
      | true =>
        have := hchainA hA
        rw [hrefM] at this
        exact Bool.noConfusion this
    have hrefU : MainScene.stillUsed st.grid (fun t => t.unitId) u = false := by
      cases hU : MainScene.stillUsed st.grid (fun t => t.unitId) u with
      | false => rfl
      | true =>
        have := hchainU hU
        rw [hrefA] at this
        exact Bool.noConfusion this
    simp only [hbm, hba, hbu, hrefM, hrefA, hrefU, Bool.not_false, Bool.and_true,
      Bool.true_and, if_true, ite_true]
    refine ⟨?_, ?_, ?_⟩
    · rw [munIds_removeUnit, munIds_removeArea, munIds_removeMunicipality]
      constructor
      · intro h
        exact absurd h hnodupM.not_mem_erase
      · rintro ⟨_, href⟩
        have := (stillUsed_iff st.grid (fun t => t.municipalityId) m).mpr href
        rw [hrefM] at this
        exact Bool.noConfusion this
    · rw [allAreaIds_removeUnit, allAreaIds_removeArea]
      constructor
      · intro h
        exact absurd h
          (hnodupA.sublist
            (allAreaIds_removeMunicipality_sublist st.registry.municipalities m)).not_mem_erase
      · rintro ⟨_, href⟩
        have := (stillUsed_iff st.grid (fun t => t.areaId) a).mpr href
        rw [hrefA] at this
        exact Bool.noConfusion this
    · rw [allUnitIds_removeUnit]
      constructor
      · intro h
        refine absurd h (List.Nodup.not_mem_erase ?_)
        exact hnodupU.sublist
          ((allUnitIds_removeArea_sublist _ a).trans
            (allUnitIds_removeMunicipality_sublist st.registry.municipalities m))
      · rintro ⟨_, href⟩
        have := (stillUsed_iff st.grid (fun t => t.unitId) u).mpr href
        rw [hrefU] at this
        exact Bool.noConfusion this
  | true =>
    have hrefsM : tileRefs st.grid (fun t => t.municipalityId) m :=
      (stillUsed_iff st.grid (fun t => t.municipalityId) m).mp hrefM
    cases hrefA : MainScene.stillUsed st.grid (fun t => t.areaId) a with
    | false =>
      have hrefU : MainScene.stillUsed st.grid (fun t => t.unitId) u = false := by
        cases hU : MainScene.stillUsed st.grid (fun t => t.unitId) u with
        | false => rfl
        | true =>
          have := hchainU hU
          rw [hrefA] at this
          exact Bool.noConfusion this
      simp only [hbm, hba, hbu, hrefM, hrefA, hrefU, Bool.not_false, Bool.not_true,
        Bool.and_true, Bool.and_false, Bool.true_and, Bool.false_eq_true, if_true,
        if_false, ite_true, ite_false]
      refine ⟨?_, ?_, ?_⟩
      · rw [munIds_removeUnit, munIds_removeArea]
        exact ⟨fun h => ⟨h, hrefsM⟩, fun h => h.1⟩
      · rw [allAreaIds_removeUnit, allAreaIds_removeArea]
        constructor
        · intro h
          exact absurd h hnodupA.not_mem_erase
        · rintro ⟨_, href⟩
          have := (stillUsed_iff st.grid (fun t => t.areaId) a).mpr href
          rw [hrefA] at this
          exact Bool.noConfusion this
      · rw [allUnitIds_removeUnit]
        constructor
        · intro h
          refine absurd h (List.Nodup.not_mem_erase ?_)
          exact hnodupU.sublist (allUnitIds_removeArea_sublist _ a)
        · rintro ⟨_, href⟩
          have := (stillUsed_iff st.grid (fun t => t.unitId) u).mpr href
          rw [hrefU] at this
          exact Bool.noConfusion this
    | true =>
      have hrefsA : tileRefs st.grid (fun t => t.areaId) a :=
        (stillUsed_iff st.grid (fun t => t.areaId) a).mp hrefA
      cases hrefU : MainScene.stillUsed st.grid (fun t => t.unitId) u with
      | false =>
        simp only [hbm, hba, hbu, hrefM, hrefA, hrefU, Bool.not_false, Bool.not_true,
          Bool.and_true, Bool.and_false, Bool.true_and, Bool.false_eq_true, if_true,
          if_false, ite_true, ite_false]
        refine ⟨?_, ?_, ?_⟩
        · rw [munIds_removeUnit]
          exact ⟨fun h => ⟨h, hrefsM⟩, fun h => h.1⟩
        · rw [allAreaIds_removeUnit]
          exact ⟨fun h => ⟨h, hrefsA⟩, fun h => h.1⟩
        · rw [allUnitIds_removeUnit]
          constructor
          · intro h
            exact absurd h hnodupU.not_mem_erase
          · rintro ⟨_, href⟩
            have := (stillUsed_iff st.grid (fun t => t.unitId) u).mpr href
            rw [hrefU] at this
            exact Bool.noConfusion this
      | true =>
        have hrefsU : tileRefs st.grid (fun t => t.unitId) u :=
          (stillUsed_iff st.grid (fun t => t.unitId) u).mp hrefU
        simp only [hbm, hba, hbu, hrefM, hrefA, hrefU, Bool.not_true,
          Bool.and_false, Bool.false_eq_true, if_false, ite_false]
        exact ⟨⟨fun h => ⟨h, hrefsM⟩, fun h => h.1⟩,
          ⟨fun h => ⟨h, hrefsA⟩, fun h => h.1⟩,
          ⟨fun h => ⟨h, hrefsU⟩, fun h => h.1⟩⟩

/-- C3: after `clearTile` clears a tile carrying ids `m`/`a`/`u`, the
cleanup removes each of them from the registry exactly when no tile of
the cleared grid still references it; a still-referenced entity stays.
Hypotheses: the tile carries the three (non-empty) ids, registry ids
are duplicate-free, and the grid is consistent with the hierarchy (a
tile referencing `a` lies in municipality `m`, one referencing `u`
lies in area `a`). -/
theorem C3_cleanup_reference_counting
    (st : GameState) (x y : ℤ) (m a u : String)
    (hm : (st.grid x y).municipalityId = m)
    (ha : (st.grid x y).areaId = a)
    (hu : (st.grid x y).unitId = u)
    (hm0 : m ≠ "") (ha0 : a ≠ "") (hu0 : u ≠ "")
    (hnodupM : (munIds st.registry.municipalities).Nodup)
    (hnodupA : (allAreaIds st.registry.municipalities).Nodup)
    (hnodupU : (allUnitIds st.registry.municipalities).Nodup)
    (hconsA : allValidTiles st.grid
      (fun t => !(t.areaId == a) || (t.municipalityId == m)) = true)
    (hconsU : allValidTiles st.grid
      (fun t => !(t.unitId == u) || (t.areaId == a)) = true) :
    (m ∈ munIds (MainScene.clearTile st x y).registry.municipalities ↔
       m ∈ munIds st.registry.municipalities ∧
         tileRefs (MainScene.clearTile st x y).grid (fun t => t.municipalityId) m) ∧
    (a ∈ allAreaIds (MainScene.clearTile st x y).registry.municipalities ↔
       a ∈ allAreaIds st.registry.municipalities ∧
         tileRefs (MainScene.clearTile st x y).grid (fun t => t.areaId) a) ∧
    (u ∈ allUnitIds (MainScene.clearTile st x y).registry.municipalities ↔
       u ∈ allUnitIds st.registry.municipalities ∧
         tileRefs (MainScene.clearTile st x y).grid (fun t => t.unitId) u) := by
  have hA' : ∀ p q : ℤ, GridService.isValidPosition p q = true →
      (st.grid p q).areaId = a → (st.grid p q).municipalityId = m := by
    intro p q hv he
    have := (allValidTiles_spec st.grid
      (fun t => !(t.areaId == a) || (t.municipalityId == m))).mp hconsA p q hv
    simp only [he, beq_self_eq_true, Bool.not_true, Bool.false_or] at this
    exact beq_iff_eq.mp this
  have hU' : ∀ p q : ℤ, GridService.isValidPosition p q = true →
      (st.grid p q).unitId = u → (st.grid p q).areaId = a := by
    intro p q hv he
    have := (allValidTiles_spec st.grid
      (fun t => !(t.unitId == u) || (t.areaId == a))).mp hconsU p q hv
    simp only [he, beq_self_eq_true, Bool.not_true, Bool.false_or] at this
    exact beq_iff_eq.mp this
  have key : ∀ st2 : GameState, st2.registry = st.registry →
      (∀ p q : ℤ, GridService.isValidPosition p q = true →
        (st2.grid p q).areaId = a → (st2.grid p q).municipalityId = m) →
      (∀ p q : ℤ, GridService.isValidPosition p q = true →
        (st2.grid p q).unitId = u → (st2.grid p q).areaId = a) →
      (m ∈ munIds (MainScene.cleanupOrphanedStructures st2 m a u).registry.municipalities ↔
         m ∈ munIds st.registry.municipalities ∧
           tileRefs st2.grid (fun t => t.municipalityId) m) ∧
      (a ∈ allAreaIds (MainScene.cleanupOrphanedStructures st2 m a u).registry.municipalities ↔
         a ∈ allAreaIds st.registry.municipalities ∧
           tileRefs st2.grid (fun t => t.areaId) a) ∧
      (u ∈ allUnitIds (MainScene.cleanupOrphanedStructures st2 m a u).registry.municipalities ↔
         u ∈ allUnitIds st.registry.municipalities ∧
           tileRefs st2.grid (fun t => t.unitId) u) := by
    intro st2 hreg hA2 hU2
    have hres := cleanup_membership st2 m a u hm0 ha0 hu0
      (by rw [hreg] at *; exact hnodupM)
      (by rw [hreg] at *; exact hnodupA)
      (by rw [hreg] at *; exact hnodupU) hA2 hU2
    rw [hreg] at hres
    exact hres
  unfold MainScene.clearTile
  dsimp only
  rw [hm, ha, hu]
  rw [cleanup_grid_eq]
  split
  · refine key _ rfl ?_ ?_
    · intro p q hv he
      have hsame := sameIds_removeSchool st.grid st.schoolState x y
      dsimp only at he ⊢
      by_cases hpq : p = x ∧ q = y
      · obtain ⟨hp, hq⟩ := hpq
        rw [hp, hq, updateTile_same] at he
        exact absurd he.symm ha0
      · rw [updateTile_other _ _ _ _ _ _ hpq] at he ⊢
        rw [(hsame p q).2.1] at he
        rw [(hsame p q).1]
        exact hA' p q hv he
    · intro p q hv he
      have hsame := sameIds_removeSchool st.grid st.schoolState x y
      dsimp only at he ⊢
      by_cases hpq : p = x ∧ q = y
      · obtain ⟨hp, hq⟩ := hpq
        rw [hp, hq, updateTile_same] at he
        exact absurd he.symm hu0
      · rw [updateTile_other _ _ _ _ _ _ hpq] at he ⊢
        rw [(hsame p q).2.2] at he
        rw [(hsame p q).2.1]
        exact hU' p q hv he
  · refine key _ rfl ?_ ?_
    · intro p q hv he
      dsimp only at he ⊢
      by_cases hpq : p = x ∧ q = y
      · obtain ⟨hp, hq⟩ := hpq
        rw [hp, hq, updateTile_same] at he
        exact absurd he.symm ha0
      · rw [updateTile_other _ _ _ _ _ _ hpq] at he ⊢
        exact hA' p q hv he
    · intro p q hv he
      dsimp only at he ⊢
      by_cases hpq : p = x ∧ q = y
      · obtain ⟨hp, hq⟩ := hpq
        rw [hp, hq, updateTile_same] at he
        exact absurd he.symm hu0
      · rw [updateTile_other _ _ _ _ _ _ hpq] at he ⊢
        exact hU' p q hv he

/-- Witness for C3: in the two-tile scenario (tiles `(0,0)` and `(1,0)`
painted with the chain municipality-1 → area-1 → unit-1), clearing
`(0,0)` keeps all three entities, since `(1,0)` still references them. -/
theorem C3_cleanup_reference_counting_witness :
    ("municipality-1" ∈ munIds (MainScene.clearTile C3state 0 0).registry.municipalities ↔
       "municipality-1" ∈ munIds C3state.registry.municipalities ∧
         tileRefs (MainScene.clearTile C3state 0 0).grid
           (fun t => t.municipalityId) "municipality-1") ∧
    ("municipality-1-area-1" ∈
        allAreaIds (MainScene.clearTile C3state 0 0).registry.municipalities ↔
       "municipality-1-area-1" ∈ allAreaIds C3state.registry.municipalities ∧
         tileRefs (MainScene.clearTile C3state 0 0).grid
           (fun t => t.areaId) "municipality-1-area-1") ∧
    ("municipality-1-area-1-unit-1" ∈
        allUnitIds (MainScene.clearTile C3state 0 0).registry.municipalities ↔
       "municipality-1-area-1-unit-1" ∈ allUnitIds C3state.registry.municipalities ∧
         tileRefs (MainScene.clearTile C3state 0 0).grid
           (fun t => t.unitId) "municipality-1-area-1-unit-1") :=
  C3_cleanup_reference_counting C3state 0 0
    "municipality-1" "municipality-1-area-1" "municipality-1-area-1-unit-1"
    (by decide) (by decide) (by decide) (by decide) (by decide) (by decide)
    (by decide) (by decide) (by decide) (by decide) (by decide)
